import Mathlib

/-!
Verification of the partial-parse diff engine (`core/dbt/parser/partial.py`)
and the static macro-call extractor (`core/dbt/clients/jinja_static.py`).

The Python code is shallowly embedded: Python dicts become association
lists over `String` keys (insertion order preserved, assignment replaces
in place, `pop` removes the binding), mutable object state becomes explicit
state passing, and Python runtime failures (KeyError, AttributeError,
IndexError, NameError, raised exceptions) become `Except` errors.
-/

set_option autoImplicit false

namespace DbtPartial

/-! ## Association lists modelling Python dicts -/

def alookup {α : Type} : List (String × α) → String → Option α
  | [], _ => none
  | (k, v) :: rest, key => if k = key then some v else alookup rest key

/-- Python dict assignment `d[k] = v`: replace in place if the key is
present, append otherwise. -/
def aset {α : Type} : List (String × α) → String → α → List (String × α)
  | [], key, v => [(key, v)]
  | (k, w) :: rest, key, v =>
    if k = key then (key, v) :: rest else (k, w) :: aset rest key v

/-- Python `d.pop(k)`: the value and the dict without the binding, or
`none` (KeyError) when the key is absent. -/
def apop {α : Type} (m : List (String × α)) (key : String) :
    Option (α × List (String × α)) :=
  match alookup m key with
  | none => none
  | some v => some (v, m.filter (fun p => p.1 != key))

def acontains {α : Type} (m : List (String × α)) (key : String) : Bool :=
  (alookup m key).isSome

/-- Python `list.remove(x)`: drop the first occurrence, `none` (ValueError)
when absent. -/
def list_remove_first : List String → String → Option (List String)
  | [], _ => none
  | x :: rest, y =>
    if x = y then some rest else (list_remove_first rest y).map (fun r => x :: r)

/-- Python `s.startswith(p)`, computed on the character lists (the string
content, not byte positions) so that it evaluates by reduction. -/
def str_startswith (s p : String) : Bool :=
  p.data.isPrefixOf s.data

/-- Python `p in s` (substring containment), on character lists. -/
def chars_is_infix : List Char → List Char → Bool
  | p, [] => p.isEmpty
  | p, c :: rest => p.isPrefixOf (c :: rest) || chars_is_infix p rest

def last_dot_part_chars : List Char → List Char → List Char
  | acc, [] => acc
  | acc, c :: rest =>
    if c = '.' then last_dot_part_chars [] rest
    else last_dot_part_chars (acc ++ [c]) rest

/-- Trailing segment of a dot-separated identifier: `parts[-1]` after
`unique_id.split('.')`. -/
def last_dot_part (s : String) : String :=
  String.mk (last_dot_part_chars [] s.data)

/-! ## Jinja expression trees

A shallow embedding of the jinja2 AST node kinds the extractor inspects:
`Name`, `Const`, `List`, `Getattr`, `Add` and `Call`.  The Python code
discriminates node kinds by `hasattr`/`type(...).__name__`; the embedding
discriminates by constructor, matching field availability of the jinja2
node classes (`Name` has `name`; `Getattr` has `node`/`attr`; `Call` has
`node`/`args`/`kwargs`; `Const` has `value`; `List` has `items`; `Add`
has `left`/`right`). -/

inductive JinjaExpr where
  | name (n : String)
  | const (value : String)
  | jlist (items : List JinjaExpr)
  | getattr (node : JinjaExpr) (attr : String)
  | add (left : JinjaExpr) (right : JinjaExpr)
  | call (node : JinjaExpr) (args : List JinjaExpr)
      (kwargs : List (String × JinjaExpr))

/-- Python-level failures of `jinja_static.py`: `raise_compiler_error`,
attribute access on a node class lacking the field, and indexing an empty
argument list. -/
inductive JinjaErr where
  | compilerError (msg : String)
  | attributeError (fieldName : String)
  | indexError
deriving DecidableEq, Repr

/-- The `.macro` payload returned by the dispatch collaborator
(`db_wrapper.dispatch(...).macro`): only `package_name` and `name` are read. -/
structure ResolvedMacroInfo where
  package_name : String
  name : String
deriving DecidableEq, Repr

/-- The live dispatch resolver collaborator (`db_wrapper`).  The macro name
argument may be Python `None` (no positional/keyword macro name) and the
packages argument is `None` when the candidate list was empty. -/
structure DbWrapper where
  dispatch : Option String → Option (List String) → ResolvedMacroInfo

/-- The template context: `ctx.get(name)` truthiness plus the
`ctx['var'](name)` project-variable collaborator.  A `none` result of
`var_lookup` models the lookup raising or returning a non-list (the
`except Exception: pass` path of `get_dispatch_list`). -/
structure JinjaCtx where
  get : String → Bool
  var_lookup : String → Option (List String)

mutual

/-- `node.find_all(jinja2.nodes.Call)`: all `Call` nodes strictly inside
the given node, in preorder.  The extractor is handed the parsed template,
whose top-level expressions are children of the template node, so applying
this to an expression includes the expression itself when it is a call. -/
def find_all_calls : JinjaExpr → List JinjaExpr
  | .name _ => []
  | .const _ => []
  | .jlist items => find_all_calls_list items
  | .getattr node _ => find_all_calls node
  | .add l r => find_all_calls l ++ find_all_calls r
  | .call node args kwargs =>
    .call node args kwargs ::
      (find_all_calls node ++ find_all_calls_list args ++ find_all_calls_pairs kwargs)

def find_all_calls_list : List JinjaExpr → List JinjaExpr
  | [] => []
  | e :: rest => find_all_calls e ++ find_all_calls_list rest

def find_all_calls_pairs : List (String × JinjaExpr) → List JinjaExpr
  | [] => []
  | (_, e) :: rest => find_all_calls e ++ find_all_calls_pairs rest

end

/-- Reading `.value` off an argument node: only `Const` carries it. -/
def const_value : JinjaExpr → Except JinjaErr String
  | .const v => .ok v
  | _ => .error (.attributeError "value")

/-- Python `str(x)` of an optional string, rendering `None` as Python does
inside an f-string. -/
def py_str : Option String → String
  | some s => s
  | none => "None"

/-- `get_dispatch_list(ctx, var_name, default_packages)` from
`jinja_static.py`. -/
def get_dispatch_list (ctx : JinjaCtx) (var_name : String)
    (default_packages : List String) : List String :=
  let namespace_list : Option (List String) :=
    match ctx.var_lookup var_name with
    | some l => some (l ++ default_packages)
    | none => none
  match namespace_list with
  | some l => if l.isEmpty then default_packages else l
  | none => default_packages

def contains_namespaces (s : String) : Bool :=
  chars_is_infix "namespaces".data s.data

/-- The `raise_compiler_error` message for an unsupported custom macro in
the `packages` argument (source lines 143-147; `.strip()` is the identity
on this text). -/
def unsupported_packages_msg (macro_name : String) : String :=
  "As of v0.19.2, custom macros, such as \x27" ++ macro_name ++
  "\x27, are no longer supported in the \x27packages\x27 argument of \x27adapter.dispatch()\x27.\n" ++
  "See https://docs.getdbt.com/reference/dbt-jinja-functions/dispatch for details."

/-- The kwargs loop of `statically_parse_adapter_dispatch` (source lines
109-121), threading `func_name`, `packages_arg` and the accumulated
`possible_macro_calls`. -/
def dispatch_kwargs_loop :
    Option String → Option JinjaExpr → List String →
    List (String × JinjaExpr) →
    Except JinjaErr (Option String × Option JinjaExpr × List String)
  | fn, pa, acc, [] => .ok (fn, pa, acc)
  | fn, pa, acc, (key, value) :: rest =>
    if key = "packages" then
      dispatch_kwargs_loop fn (some value) acc rest
    else if key = "macro_name" then
      match value with
      | .const v => dispatch_kwargs_loop (some v) pa (acc ++ [v]) rest
      | _ => .error (.attributeError "value")
    else
      dispatch_kwargs_loop fn pa acc rest

/-- Extracting `.value` of every item of a literal list node. -/
def list_item_values : List JinjaExpr → Except JinjaErr (List String)
  | [] => .ok []
  | e :: rest => do
    let v ← const_value e
    let vs ← list_item_values rest
    .ok (v :: vs)

/-- The `Add` branch scan (source lines 154-158): the last
`var(<const>)` call wins; a call whose callee is not a plain name raises
AttributeError when `.node.name` is read. -/
def add_var_scan : Option String → List JinjaExpr → Except JinjaErr (Option String)
  | nv, [] => .ok nv
  | nv, c :: rest =>
    match c with
    | .call (.name n) cargs _ =>
      if n = "var" then
        match cargs.head? with
        | none => .error .indexError
        | some a => do
          let v ← const_value a
          add_var_scan (some v) rest
      else add_var_scan nv rest
    | .call _ _ _ => .error (.attributeError "name")
    | _ => add_var_scan nv rest

/-- Resolution of the `packages` argument value into the candidate package
list (source lines 123-166).  A `Call` whose callee is not an
attribute access on a plain name silently contributes nothing (the
`hasattr` guard at lines 130-133 fails), as does any node kind without a
branch (e.g. `Const`). -/
def dispatch_packages (ctx : JinjaCtx) :
    Option JinjaExpr → Except JinjaErr (List String)
  | none => .ok []
  | some p =>
    match p with
    | .jlist items => list_item_values items
    | .call callee _ _ =>
      match callee with
      | .getattr (.name package_name) attr_name =>
        if str_startswith attr_name "_get" && contains_namespaces attr_name then
          .ok (get_dispatch_list ctx (package_name ++ "_dispatch_list") [package_name])
        else
          .error (.compilerError (unsupported_packages_msg attr_name))
      | _ => .ok []
    | .add l r => do
      let nv ← add_var_scan none (find_all_calls (.add l r))
      let default_namespaces ←
        (match r with
          | .jlist items => list_item_values items
          | _ => .error (.attributeError "items"))
      match nv with
      | some v =>
        if v = "" then .ok []
        else .ok (get_dispatch_list ctx v default_namespaces)
      | none => .ok []
    | _ => .ok []

/-- `statically_parse_adapter_dispatch(func_call, ctx, db_wrapper)`:
the call node's `args` and `kwargs` are the only fields read. -/
def statically_parse_adapter_dispatch (args : List JinjaExpr)
    (kwargs : List (String × JinjaExpr)) (ctx : JinjaCtx)
    (db_wrapper : Option DbWrapper) : Except JinjaErr (List String) := do
  let fn0 : Option String ←
    match args.head? with
    | none => pure none
    | some a => do
      let v ← const_value a
      pure (some v)
  let acc0 : List String :=
    match fn0 with
    | some v => if v = "" then [] else [v]
    | none => []
  let (fn1, pa1, acc1) ← dispatch_kwargs_loop fn0 args[1]? acc0 kwargs
  let packages ← dispatch_packages ctx pa1
  match db_wrapper with
  | some w =>
    let packages_opt := if packages.isEmpty then none else some packages
    let mac := w.dispatch fn1 packages_opt
    .ok (acc1 ++ [mac.package_name ++ "." ++ mac.name])
  | none =>
    .ok (acc1 ++ packages.map (fun p => p ++ "." ++ py_str fn1))

def extract_standard_calls : List String := ["source", "ref", "config"]

/-- Lines 51-59 of `statically_extract_macro_calls`: filter reserved
builtins, context-bound names and duplicates, otherwise append. -/
def finish_call (ctx : JinjaCtx) (acc : List String) :
    Option String → List String
  | none => acc
  | some f =>
    if f = "" then acc
    else if extract_standard_calls.contains f then acc
    else if ctx.get f then acc
    else if acc.contains f then acc else acc ++ [f]

/-- One iteration of the extractor's call loop (source lines 13-59). -/
def process_call (ctx : JinjaCtx) (dbw : Option DbWrapper)
    (acc : List String) : JinjaExpr → Except JinjaErr (List String)
  | .call callee args kwargs =>
    match callee with
    | .name n => .ok (finish_call ctx acc (some n))
    | .getattr (.name package_name) attr_name =>
      if package_name = "adapter" then
        if attr_name = "dispatch" then do
          let ad ← statically_parse_adapter_dispatch args kwargs ctx dbw
          -- after the extend, func_name is still None so the loop continues
          .ok (acc ++ ad)
        else .ok acc
      else .ok (finish_call ctx acc (some (package_name ++ "." ++ attr_name)))
    | _ => .ok acc
  | _ => .ok acc

def extract_loop (ctx : JinjaCtx) (dbw : Option DbWrapper) :
    List String → List JinjaExpr → Except JinjaErr (List String)
  | acc, [] => .ok acc
  | acc, fc :: rest => do
    let acc' ← process_call ctx dbw acc fc
    extract_loop ctx dbw acc' rest

/-- `statically_extract_macro_calls(string, ctx, db_wrapper)`, taking the
parsed template in place of the source string (parsing is the external
template engine's job, out of scope per the spec). -/
def statically_extract_macro_calls (parsed : JinjaExpr) (ctx : JinjaCtx)
    (db_wrapper : Option DbWrapper) : Except JinjaErr (List String) :=
  extract_loop ctx db_wrapper [] (find_all_calls parsed)

end DbtPartial

namespace DbtPartial

/-! ## Data model of `core/dbt/parser/partial.py`

Python object state becomes explicit record state; the `PartialParsing`
instance becomes a `PPState` threaded through every operation.  Note that
`self.saved_files` aliases `self.saved_manifest.files` in the Python
class, so the embedding uses `saved_manifest.files` for both.  Python
runtime failures become `PErr` errors. -/

inductive ParseFileType where
  | Model
  | Seed
  | Snapshot
  | Analysis
  | Test
  | Macro
  | Documentation
  | Schema
deriving DecidableEq, Repr

inductive PErr where
  | keyError (key : String)
  | nameError (n : String)
  | attributeError (n : String)
  | indexError
  | valueError (s : String)
  | raised (msg : String)
deriving DecidableEq, Repr

def mssat_files : List ParseFileType :=
  [ParseFileType.Model, ParseFileType.Seed, ParseFileType.Snapshot,
   ParseFileType.Analysis, ParseFileType.Test]

def key_to_prefix_map : List (String × String) :=
  [("models", "model"), ("seeds", "seed"), ("snapshots", "snapshot"),
   ("analyses", "analysis")]

def parse_file_type_to_key : ParseFileType → Option String
  | .Model => some "models"
  | .Seed => some "seeds"
  | .Snapshot => some "snapshots"
  | .Analysis => some "analyses"
  | _ => none

/-- Modelled from the spec: the `parse_file_type_to_parser` mapping lives in
`dbt.contracts.files`, which is not part of the source corpus; the spec
says the scheduler "looks up the file's FileKind to a parser-kind tag".
Every kind resolves to a non-empty tag here, as in a well-formed mapping. -/
def parse_file_type_to_parser_name : ParseFileType → String
  | .Model => "ModelParser"
  | .Seed => "SeedParser"
  | .Snapshot => "SnapshotParser"
  | .Analysis => "AnalysisParser"
  | .Test => "DataTestParser"
  | .Macro => "MacroParser"
  | .Documentation => "DocumentationParser"
  | .Schema => "SchemaParser"

structure DependsOn where
  nodes : List String
  macros : List String
deriving DecidableEq, Repr

structure ManifestNode where
  name : String
  file_id : String
  patch_path : Option String
  depends_on : DependsOn
deriving DecidableEq, Repr

structure ManifestMacro where
  file_id : String
  depends_on : DependsOn
deriving DecidableEq, Repr

/-- Duck-typed model of `ParsedSourceDefinition` / `ParsedExposure`: the
diff engine reads only `source_name` (sources) and `name` (exposures).
One record stands for both, mirroring Python's dynamic typing (the code in
`delete_schema_source` stores a value popped from one mapping into the
other's bookkeeping). -/
structure SourceEntity where
  name : String
  source_name : String
deriving DecidableEq, Repr

/-- One element of a schema-file section list: a YAML mapping with a
`name` key, possibly an `override` key, and arbitrary further content
(`body`), compared by full structural equality. -/
structure SchemaElem where
  name : String
  hasOverride : Bool
  body : String
deriving DecidableEq, Repr

/-- A schema file's parsed YAML document: the `version` marker plus the
section lists keyed by section name (key presence is significant). -/
structure YamlDict where
  version : String
  sections : List (String × List SchemaElem)
deriving DecidableEq, Repr

/-- The empty dict `{}` handed to the section differ when a schema file is
deleted. -/
def empty_yaml : YamlDict := { version := "", sections := [] }

structure SourceFile where
  file_id : String
  project_name : String
  parse_file_type : ParseFileType
  checksum : String
  contents : String
  /-- whether the Python object is of class `SchemaSourceFile` (checked by
  the serialization guard in `build_file_diff`). -/
  schema_source_class : Bool
  nodes : List String
  macros : List String
  docs : List String
  /-- backing storage of the `dict_from_yaml` property. -/
  dfy : YamlDict
  pp_dict : Option YamlDict
  node_patches : List String
  macro_patches : List String
  tests : List String
  sources : List String
  exposures : List String
  pp_test_index : Option (List (String × List String))
deriving DecidableEq, Repr

def SourceFile.dict_from_yaml (sf : SourceFile) : YamlDict := sf.dfy

structure Manifest where
  nodes : List (String × ManifestNode)
  macros : List (String × ManifestMacro)
  docs : List (String × String)
  sources : List (String × SourceEntity)
  exposures : List (String × SourceEntity)
  files : List (String × SourceFile)
deriving DecidableEq, Repr

def Manifest.empty : Manifest :=
  { nodes := [], macros := [], docs := [], sources := [], exposures := [], files := [] }

structure FileDiff where
  deleted : List String
  deleted_schema_files : List String
  added : List String
  changed : List String
  changed_schema_files : List String
  unchanged : List String
deriving DecidableEq, Repr

structure PPState where
  saved_manifest : Manifest
  new_files : List (String × SourceFile)
  project_parser_files : List (String × List (String × List String))
  deleted_manifest : Manifest
  file_diff : FileDiff
deriving DecidableEq, Repr

def set_saved_file (st : PPState) (fid : String) (sf : SourceFile) : PPState :=
  { st with saved_manifest :=
      { st.saved_manifest with files := aset st.saved_manifest.files fid sf } }

def fetch_saved_file (st : PPState) (fid : String) : Except PErr SourceFile :=
  match alookup st.saved_manifest.files fid with
  | some sf => .ok sf
  | none => .error (.keyError fid)

def fetch_new_file (st : PPState) (fid : String) : Except PErr SourceFile :=
  match alookup st.new_files fid with
  | some sf => .ok sf
  | none => .error (.keyError fid)

/-! ## File diff -/

def classify_common (saved_files new_files : List (String × SourceFile)) :
    List String → Except PErr (List String × List String × List String)
  | [] => .ok ([], [], [])
  | i :: rest =>
    match alookup saved_files i, alookup new_files i with
    | some sf, some nf =>
      if sf.checksum = nf.checksum then do
        let (c, cs, u) ← classify_common saved_files new_files rest
        .ok (c, cs, i :: u)
      else if sf.parse_file_type = ParseFileType.Schema then
        if sf.schema_source_class = false then
          .error (.raised ("Serialization failure for " ++ i))
        else do
          let (c, cs, u) ← classify_common saved_files new_files rest
          .ok (c, i :: cs, u)
      else do
        let (c, cs, u) ← classify_common saved_files new_files rest
        .ok (i :: c, cs, u)
    | _, _ => .error (.keyError i)

def is_schema_file (files : List (String × SourceFile)) (i : String) : Bool :=
  match alookup files i with
  | some sf => sf.parse_file_type = ParseFileType.Schema
  | none => false

/-- `build_file_diff`, with set iteration order replaced by first-occurrence
key order. -/
def build_file_diff (saved_files new_files : List (String × SourceFile)) :
    Except PErr FileDiff := do
  let saved_ids := saved_files.map (fun p => p.1)
  let new_ids := new_files.map (fun p => p.1)
  let deleted_all := saved_ids.filter (fun i => !(new_ids.contains i))
  let added := new_ids.filter (fun i => !(saved_ids.contains i))
  let common := saved_ids.filter (fun i => new_ids.contains i)
  let deleted_schema_files := deleted_all.filter (fun i => is_schema_file saved_files i)
  let deleted := deleted_all.filter (fun i => !(is_schema_file saved_files i))
  let (changed, changed_schema_files, unchanged) ←
    classify_common saved_files new_files common
  .ok { deleted := deleted, deleted_schema_files := deleted_schema_files,
        added := added, changed := changed,
        changed_schema_files := changed_schema_files, unchanged := unchanged }

/-- `PartialParsing.__init__`. -/
def mk_partial_parsing (saved_manifest : Manifest)
    (new_files : List (String × SourceFile)) : Except PErr PPState := do
  let fd ← build_file_diff saved_manifest.files new_files
  .ok { saved_manifest := saved_manifest, new_files := new_files,
        project_parser_files := [], deleted_manifest := Manifest.empty,
        file_diff := fd }

def skip_parsing (st : PPState) : Bool :=
  st.file_diff.deleted.isEmpty && st.file_diff.added.isEmpty &&
  st.file_diff.changed.isEmpty && st.file_diff.changed_schema_files.isEmpty &&
  st.file_diff.deleted_schema_files.isEmpty

/-! ## Reparse scheduler -/

/-- `add_to_pp_files`: the sole write path into `project_parser_files`. -/
def add_to_pp_files (st : PPState) (source_file : SourceFile) :
    Except PErr PPState :=
  let file_id := source_file.file_id
  let pname := parse_file_type_to_parser_name source_file.parse_file_type
  let project_name := source_file.project_name
  if pname = "" ∨ project_name = "" then
    .error (.raised ("Did not find parse_file_type or project_name in SourceFile for " ++ file_id))
  else
    let proj := (alookup st.project_parser_files project_name).getD []
    let lst := (alookup proj pname).getD []
    let lst2 :=
      if !(lst.contains file_id) && !(st.file_diff.deleted.contains file_id) then
        lst ++ [file_id]
      else lst
    let ppf := aset st.project_parser_files project_name (aset proj pname lst2)
    .ok { st with project_parser_files := ppf }

/-! ## Pending-patch merging and section diffing -/

/-- `merge_patch(schema_file, key, patch)` on the file value (the schema
file object is mutated in place in Python). -/
def merge_patch (schema_file : SourceFile) (key : String) (patch : SchemaElem) :
    SourceFile :=
  let pp : YamlDict :=
    match schema_file.pp_dict with
    | none => { version := schema_file.dfy.version, sections := [] }
    | some d => d
  let pp2 : YamlDict :=
    match alookup pp.sections key with
    | none => { pp with sections := aset pp.sections key [patch] }
    | some elems =>
      if elems.any (fun e => e.name == patch.name) then pp
      else { pp with sections := aset pp.sections key (elems ++ [patch]) }
  { schema_file with pp_dict := some pp2 }

def merge_patch_in (st : PPState) (fid : String) (key : String)
    (patch : SchemaElem) : Except PErr PPState := do
  let sf ← fetch_saved_file st fid
  .ok (set_saved_file st fid (merge_patch sf key patch))

structure KeyDiff where
  deleted : List SchemaElem
  added : List SchemaElem
  changed : List SchemaElem
deriving DecidableEq, Repr

/-- The name-to-element map building loop of `get_diff_for`: later entries
overwrite earlier ones with the same name. -/
def elements_by_name (elems : List SchemaElem) : List (String × SchemaElem) :=
  elems.foldl (fun m e => aset m e.name e) []

/-- `get_diff_for(key, saved_yaml_dict, new_yaml_dict)`, with Python set
iteration replaced by first-occurrence key order. -/
def get_diff_for (key : String) (saved_yaml new_yaml : YamlDict) : KeyDiff :=
  if acontains saved_yaml.sections key || acontains new_yaml.sections key then
    let saved_elements := (alookup saved_yaml.sections key).getD []
    let new_elements := (alookup new_yaml.sections key).getD []
    let sbn := elements_by_name saved_elements
    let nbn := elements_by_name new_elements
    let deleted_names := (sbn.map (fun p => p.1)).filter (fun n => !(acontains nbn n))
    let added_names := (nbn.map (fun p => p.1)).filter (fun n => !(acontains sbn n))
    let common_names := (sbn.map (fun p => p.1)).filter (fun n => acontains nbn n)
    let changed_names := common_names.filter (fun n => !(alookup sbn n == alookup nbn n))
    { deleted := deleted_names.filterMap (fun n => alookup sbn n),
      added := added_names.filterMap (fun n => alookup nbn n),
      changed := changed_names.filterMap (fun n => alookup nbn n) }
  else { deleted := [], added := [], changed := [] }

/-! ## Cascade invalidator -/

/-- The loop of `delete_schema_source` over `schema_file.sources`.  Line
520 of the source pops the matching id from the EXPOSURES mapping (not the
sources mapping) before recording it in the removed manifest's sources;
the embedding reproduces that verbatim, including the resulting KeyError
when the id is not among the exposures. -/
def delete_schema_source_loop (source_name : String) :
    PPState → List String → Except PErr PPState
  | st, [] => .ok st
  | st, unique_id :: rest =>
    match alookup st.saved_manifest.sources unique_id with
    | some src =>
      if src.source_name = source_name then
        match apop st.saved_manifest.exposures unique_id with
        | none => .error (.keyError unique_id)
        | some (popped, exps) =>
          let st2 := { st with
            saved_manifest := { st.saved_manifest with exposures := exps },
            deleted_manifest := { st.deleted_manifest with
              sources := aset st.deleted_manifest.sources unique_id popped } }
          delete_schema_source_loop source_name st2 rest
      else delete_schema_source_loop source_name st rest
    | none => delete_schema_source_loop source_name st rest

def delete_schema_source (st : PPState) (schema_file : SourceFile)
    (source_dict : SchemaElem) : Except PErr PPState :=
  delete_schema_source_loop source_dict.name st schema_file.sources

/-- The loop of `delete_schema_exposure`: note the source indexes
`saved_manifest.exposures[unique_id]` (line 545) before the membership
check, so a stale id raises KeyError. -/
def delete_schema_exposure_loop (exposure_name : String) :
    PPState → List String → Except PErr PPState
  | st, [] => .ok st
  | st, unique_id :: rest =>
    match alookup st.saved_manifest.exposures unique_id with
    | none => .error (.keyError unique_id)
    | some e =>
      if e.name = exposure_name then
        match apop st.saved_manifest.exposures unique_id with
        | none => .error (.keyError unique_id)
        | some (popped, exps) =>
          let st2 := { st with
            saved_manifest := { st.saved_manifest with exposures := exps },
            deleted_manifest := { st.deleted_manifest with
              exposures := aset st.deleted_manifest.exposures unique_id popped } }
          delete_schema_exposure_loop exposure_name st2 rest
      else delete_schema_exposure_loop exposure_name st rest

def delete_schema_exposure (st : PPState) (schema_file : SourceFile)
    (exposure_dict : SchemaElem) : Except PErr PPState :=
  delete_schema_exposure_loop exposure_dict.name st schema_file.exposures

/-- `delete_schema_macro_patch(schema_file, macro)`: the search loop leaves
`macro_unique_id` unbound (NameError) when no recorded macro-patch id
matches. -/
def delete_schema_macro_patch (st : PPState) (fid : String)
    (mac_dict : SchemaElem) : Except PErr PPState := do
  let schema_file ← fetch_saved_file st fid
  match schema_file.macro_patches.find?
      (fun u => last_dot_part u == mac_dict.name) with
  | none => .error (.nameError "macro_unique_id")
  | some macro_unique_id => do
    let st2 ←
      match apop st.saved_manifest.macros macro_unique_id with
      | some (mac, macs) => do
        let stx := { st with
          saved_manifest := { st.saved_manifest with macros := macs },
          deleted_manifest := { st.deleted_manifest with
            macros := aset st.deleted_manifest.macros macro_unique_id mac } }
        let mfile ← fetch_saved_file stx mac.file_id
        add_to_pp_files stx mfile
      | none => .ok st
    let sf2 ← fetch_saved_file st2 fid
    if sf2.macro_patches.contains macro_unique_id then
      match list_remove_first sf2.macro_patches macro_unique_id with
      | some l => .ok (set_saved_file st2 fid { sf2 with macro_patches := l })
      | none => .error (.valueError macro_unique_id)
    else .ok st2

/-- The `pp_test_index` building loop of `get_tests_for`. -/
def build_test_index (nodes : List (String × ManifestNode)) :
    List (String × List String) → List String →
    Except PErr (List (String × List String))
  | idx, [] => .ok idx
  | idx, t :: rest =>
    match alookup nodes t with
    | none => .error (.keyError t)
    | some tn =>
      match tn.depends_on.nodes.head? with
      | none => .error .indexError
      | some dep =>
        let en := last_dot_part dep
        let idx2 :=
          match alookup idx en with
          | some l => aset idx en (l ++ [t])
          | none => aset idx en [t]
        build_test_index nodes idx2 rest

/-- `get_tests_for(schema_file, node_name)`: memoizes the index on the
file (an empty memoized dict is falsy and rebuilt, as in Python). -/
def get_tests_for (st : PPState) (fid : String) (node_name : String) :
    Except PErr (List String × PPState) := do
  let schema_file ← fetch_saved_file st fid
  let need_build : Bool :=
    match schema_file.pp_test_index with
    | none => true
    | some idx => idx.isEmpty
  if need_build then do
    let idx ← build_test_index st.saved_manifest.nodes [] schema_file.tests
    let st2 := set_saved_file st fid { schema_file with pp_test_index := some idx }
    .ok ((alookup idx node_name).getD [], st2)
  else do
    let idx := schema_file.pp_test_index.getD []
    .ok ((alookup idx node_name).getD [], st)

/-- The test-removal loop at the end of `delete_schema_mssa_links`. -/
def remove_tests_loop (fid : String) :
    PPState → List String → Except PErr PPState
  | st, [] => .ok st
  | st, t :: rest =>
    match apop st.saved_manifest.nodes t with
    | none => .error (.keyError t)
    | some (tn, rest_nodes) =>
      let st2 := { st with
        saved_manifest := { st.saved_manifest with nodes := rest_nodes },
        deleted_manifest := { st.deleted_manifest with
          nodes := aset st.deleted_manifest.nodes t tn } }
      match fetch_saved_file st2 fid with
      | .error e => .error e
      | .ok sf =>
        match list_remove_first sf.tests t with
        | none => .error (.valueError t)
        | some ts =>
          remove_tests_loop fid (set_saved_file st2 fid { sf with tests := ts }) rest

/-- `delete_schema_mssa_links(schema_file, dict_key, elem)`. -/
def delete_schema_mssa_links (st : PPState) (fid : String) (dict_key : String)
    (elem : SchemaElem) : Except PErr PPState := do
  let schema_file ← fetch_saved_file st fid
  let pfx ←
    match alookup key_to_prefix_map dict_key with
    | some p => .ok p
    | none => .error (.keyError dict_key)
  let elem_unique_id := schema_file.node_patches.find?
    (fun u => str_startswith u pfx && last_dot_part u == elem.name)
  let st1 ←
    match elem_unique_id with
    | none => .ok st
    | some uid => do
      let st_a ←
        match apop st.saved_manifest.nodes uid with
        | some (node, rest_nodes) => do
          let stx := { st with
            saved_manifest := { st.saved_manifest with nodes := rest_nodes },
            deleted_manifest := { st.deleted_manifest with
              nodes := aset st.deleted_manifest.nodes uid node } }
          -- `self.new_files[file_id]` raises KeyError when absent
          let nf ← fetch_new_file stx node.file_id
          let sty := set_saved_file stx node.file_id nf
          add_to_pp_files sty nf
        | none => .ok st
      let sf2 ← fetch_saved_file st_a fid
      match list_remove_first sf2.node_patches uid with
      | none => .error (.valueError uid)
      | some nps => .ok (set_saved_file st_a fid { sf2 with node_patches := nps })
  if dict_key = "models" || dict_key = "seeds" || dict_key = "snapshots" then do
    let (tests, st2) ← get_tests_for st1 fid elem.name
    remove_tests_loop fid st2 tests
  else
    .ok st1

/-- The inner scan over one macro's `depends_on.macros` in
`handle_macro_file_links` (source lines 480-488): the membership test
`macro_unique_id in self.saved_manifest.macros` is evaluated AFTER the
removed macro was popped, so it can never hold for `uid`. -/
def macro_dep_inner (uid : String) (mac : ManifestMacro) :
    PPState → List String → Except PErr PPState
  | st, [] => .ok st
  | st, macro_unique_id :: rest => do
    let st2 ←
      if macro_unique_id == uid && acontains st.saved_manifest.macros macro_unique_id then
        match alookup st.saved_manifest.files mac.file_id with
        | some sfile => add_to_pp_files st sfile
        | none => .ok st
      else .ok st
    macro_dep_inner uid mac st2 rest

def macro_dep_scan (uid : String) :
    PPState → List (String × ManifestMacro) → Except PErr PPState
  | st, [] => .ok st
  | st, (_, mac) :: rest => do
    let st2 ← macro_dep_inner uid mac st mac.depends_on.macros
    macro_dep_scan uid st2 rest

/-- The matching scan over all nodes (source lines 489-498). -/
def node_dep_inner (uid : String) (node : ManifestNode) :
    PPState → List String → Except PErr PPState
  | st, [] => .ok st
  | st, macro_unique_id :: rest => do
    let st2 ←
      if macro_unique_id == uid && acontains st.saved_manifest.macros macro_unique_id then
        match alookup st.saved_manifest.files node.file_id with
        | some sfile => add_to_pp_files st sfile
        | none => .ok st
      else .ok st
    node_dep_inner uid node st2 rest

def node_dep_scan (uid : String) :
    PPState → List (String × ManifestNode) → Except PErr PPState
  | st, [] => .ok st
  | st, (_, node) :: rest => do
    let st2 ← node_dep_inner uid node st node.depends_on.macros
    node_dep_scan uid st2 rest

def handle_macro_file_links_loop :
    PPState → List String → Except PErr PPState
  | st, [] => .ok st
  | st, uid :: rest =>
    match apop st.saved_manifest.macros uid with
    | none => .error (.keyError uid)
    | some (mac, macs) => do
      let st1 := { st with
        saved_manifest := { st.saved_manifest with macros := macs },
        deleted_manifest := { st.deleted_manifest with
          macros := aset st.deleted_manifest.macros uid mac } }
      let st2 ← macro_dep_scan uid st1 st1.saved_manifest.macros
      let st3 ← node_dep_scan uid st2 st2.saved_manifest.nodes
      handle_macro_file_links_loop st3 rest

/-- `handle_macro_file_links(source_file)`. -/
def handle_macro_file_links (st : PPState) (source_file : SourceFile) :
    Except PErr PPState :=
  handle_macro_file_links_loop st source_file.macros

/-- `delete_node_in_saved(source_file, unique_id)`.  The element search
loop (source lines 206-208) has no break, so the LAST matching element
wins, and an absent match leaves `elem_patch` unbound (NameError). -/
def delete_node_in_saved (st : PPState) (source_file : SourceFile)
    (unique_id : String) : Except PErr PPState := do
  let (node, rest_nodes) ←
    match apop st.saved_manifest.nodes unique_id with
    | some r => .ok r
    | none => .error (.keyError unique_id)
  let st1 := { st with
    saved_manifest := { st.saved_manifest with nodes := rest_nodes },
    deleted_manifest := { st.deleted_manifest with
      nodes := aset st.deleted_manifest.nodes unique_id node } }
  match node.patch_path with
  | none => .ok st1
  | some file_id =>
    if st1.file_diff.deleted.contains file_id then .ok st1
    else do
      let schema_file ← fetch_saved_file st1 file_id
      let dict_key ←
        match parse_file_type_to_key source_file.parse_file_type with
        | some k => .ok k
        | none => .error (.keyError "parse_file_type")
      let elems ←
        match alookup schema_file.dfy.sections dict_key with
        | some es => .ok es
        | none => .error (.keyError dict_key)
      match elems.reverse.find? (fun e => e.name == node.name) with
      | none => .error (.nameError "elem_patch")
      | some elem_patch => do
        let st2 ← delete_schema_mssa_links st1 file_id dict_key elem_patch
        let st3 ← merge_patch_in st2 file_id dict_key elem_patch
        let sf3 ← fetch_saved_file st3 file_id
        let st4 ← add_to_pp_files st3 sf3
        let sf4 ← fetch_saved_file st4 file_id
        if sf4.node_patches.contains unique_id then
          match list_remove_first sf4.node_patches unique_id with
          | some nps =>
            .ok (set_saved_file st4 file_id { sf4 with node_patches := nps })
          | none => .error (.valueError unique_id)
        else .ok st4

/-! ## File-level removal and update -/

/-- `delete_mssat_file(source_file)`: the loop body calls
`self.schedule_nodes_for_parsing`, a method that does not exist on the
class, so after the first node is removed an AttributeError is raised. -/
def delete_mssat_file (st : PPState) (source_file : SourceFile) :
    Except PErr PPState := do
  match source_file.nodes with
  | [] => .error (.raised ("No nodes found for source file " ++ source_file.file_id))
  | unique_id :: _ => do
    let _ ← delete_node_in_saved st source_file unique_id
    .error (.attributeError "schedule_nodes_for_parsing")

def pop_saved_file_to_deleted (st : PPState) (file_id : String) :
    Except PErr PPState :=
  match apop st.saved_manifest.files file_id with
  | none => .error (.keyError file_id)
  | some (sf, fls) =>
    .ok { st with
      saved_manifest := { st.saved_manifest with files := fls },
      deleted_manifest := { st.deleted_manifest with
        files := aset st.deleted_manifest.files file_id sf } }

def delete_macro_file (st : PPState) (source_file : SourceFile) :
    Except PErr PPState := do
  let st1 ← handle_macro_file_links st source_file
  pop_saved_file_to_deleted st1 source_file.file_id

def delete_doc_file_loop : PPState → List String → Except PErr PPState
  | st, [] => .ok st
  | st, uid :: rest =>
    match apop st.saved_manifest.docs uid with
    | none => .error (.keyError uid)
    | some (d, ds) =>
      let st2 := { st with
        saved_manifest := { st.saved_manifest with docs := ds },
        deleted_manifest := { st.deleted_manifest with
          docs := aset st.deleted_manifest.docs uid d } }
      delete_doc_file_loop st2 rest

def delete_doc_file (st : PPState) (source_file : SourceFile) :
    Except PErr PPState := do
  let st1 ← delete_doc_file_loop st source_file.docs
  pop_saved_file_to_deleted st1 source_file.file_id

/-- `delete_from_saved(file_id)`: after the kind-specific removal the file
entry is popped again at source line 156 (macro and documentation kinds
already popped it, yielding KeyError). -/
def delete_from_saved (st : PPState) (file_id : String) :
    Except PErr PPState := do
  let saved_source_file ← fetch_saved_file st file_id
  let st1 ←
    if mssat_files.contains saved_source_file.parse_file_type then
      delete_mssat_file st saved_source_file
    else .ok st
  let st2 ←
    if saved_source_file.parse_file_type == ParseFileType.Macro then
      delete_macro_file st1 saved_source_file
    else .ok st1
  let st3 ←
    if saved_source_file.parse_file_type == ParseFileType.Documentation then
      delete_doc_file st2 saved_source_file
    else .ok st2
  pop_saved_file_to_deleted st3 file_id

/-- `update_mssat_in_saved(new_source_file, old_source_file)`:
`old_source_file.nodes[0]` raises IndexError when the file has no node. -/
def update_mssat_in_saved (st : PPState)
    (new_source_file old_source_file : SourceFile) : Except PErr PPState := do
  let unique_id ←
    match old_source_file.nodes.head? with
    | some u => .ok u
    | none => .error .indexError
  let file_id := new_source_file.file_id
  let st1 := { st with deleted_manifest := { st.deleted_manifest with
      files := aset st.deleted_manifest.files file_id old_source_file } }
  let st2 := set_saved_file st1 file_id new_source_file
  let st3 ← add_to_pp_files st2 new_source_file
  delete_node_in_saved st3 new_source_file unique_id

def update_macro_in_saved (st : PPState)
    (new_source_file old_source_file : SourceFile) : Except PErr PPState := do
  let st1 ← handle_macro_file_links st old_source_file
  let st2 := set_saved_file st1 new_source_file.file_id new_source_file
  add_to_pp_files st2 new_source_file

/-- `update_doc_in_saved`: installs the new file and schedules it (the
stale-reference warning is a log message). -/
def update_doc_in_saved (st : PPState)
    (new_source_file _old_source_file : SourceFile) : Except PErr PPState := do
  let st1 := set_saved_file st new_source_file.file_id new_source_file
  add_to_pp_files st1 new_source_file

def update_in_saved (st : PPState) (file_id : String) : Except PErr PPState := do
  let new_source_file ← fetch_new_file st file_id
  let old_source_file ← fetch_saved_file st file_id
  if mssat_files.contains new_source_file.parse_file_type then
    update_mssat_in_saved st new_source_file old_source_file
  else if new_source_file.parse_file_type == ParseFileType.Macro then
    update_macro_in_saved st new_source_file old_source_file
  else if new_source_file.parse_file_type == ParseFileType.Documentation then
    update_doc_in_saved st new_source_file old_source_file
  else .error (.raised ("Invalid parse_file_type in source_file " ++ file_id))

/-- `add_to_saved(file_id)`: the `pp_dict` seeding mutates the object that
both `new_files` and the saved files mapping reference. -/
def add_to_saved (st : PPState) (file_id : String) : Except PErr PPState := do
  let source_file ← fetch_new_file st file_id
  let source_file :=
    if source_file.parse_file_type == ParseFileType.Schema then
      { source_file with pp_dict := some source_file.dfy }
    else source_file
  let st1 := { st with new_files := aset st.new_files file_id source_file }
  let st2 := set_saved_file st1 file_id source_file
  add_to_pp_files st2 source_file

/-! ## Schema-section application

The models/seeds/snapshots/analyses loops bind the Python local `elem`;
the macros `changed` loop (source line 305) reads that stale variable, so
it is threaded explicitly.  The `enabled` guard at source line 268 has a
comment-only body and is a no-op. -/

def mssa_changed_loop (fid : String) (dict_key : String) :
    PPState → Option SchemaElem → List SchemaElem →
    Except PErr (PPState × Option SchemaElem)
  | st, le, [] => .ok (st, le)
  | st, _, elem :: rest => do
    let st1 ← delete_schema_mssa_links st fid dict_key elem
    let st2 ← merge_patch_in st1 fid dict_key elem
    mssa_changed_loop fid dict_key st2 (some elem) rest

def mssa_deleted_loop (fid : String) (dict_key : String) :
    PPState → Option SchemaElem → List SchemaElem →
    Except PErr (PPState × Option SchemaElem)
  | st, le, [] => .ok (st, le)
  | st, _, elem :: rest => do
    let st1 ← delete_schema_mssa_links st fid dict_key elem
    mssa_deleted_loop fid dict_key st1 (some elem) rest

def mssa_added_loop (fid : String) (dict_key : String) :
    PPState → Option SchemaElem → List SchemaElem →
    Except PErr (PPState × Option SchemaElem)
  | st, le, [] => .ok (st, le)
  | st, _, elem :: rest => do
    let st1 ← merge_patch_in st fid dict_key elem
    mssa_added_loop fid dict_key st1 (some elem) rest

def handle_mssa_key (fid : String) (dict_key : String)
    (saved_yaml new_yaml : YamlDict) (st : PPState) (le : Option SchemaElem) :
    Except PErr (PPState × Option SchemaElem) := do
  let key_diff := get_diff_for dict_key saved_yaml new_yaml
  let (st1, le1) ← mssa_changed_loop fid dict_key st le key_diff.changed
  let (st2, le2) ← mssa_deleted_loop fid dict_key st1 le1 key_diff.deleted
  mssa_added_loop fid dict_key st2 le2 key_diff.added

/-- One `changed` source element (source lines 281-286): the override
check precedes the unlink and the merge. -/
def source_changed_step (st : PPState) (fid : String) (source : SchemaElem) :
    Except PErr PPState := do
  if source.hasOverride then
    .error (.raised ("Partial parsing does not handle changed source overrides: " ++ fid))
  else do
    let sf ← fetch_saved_file st fid
    let st1 ← delete_schema_source st sf source
    merge_patch_in st1 fid "sources" source

/-- One `deleted` source element (source lines 288-292). -/
def source_deleted_step (st : PPState) (fid : String) (source : SchemaElem) :
    Except PErr PPState := do
  if source.hasOverride then
    .error (.raised ("Partial parsing does not handle deleted source overrides: " ++ fid))
  else do
    let sf ← fetch_saved_file st fid
    delete_schema_source st sf source

/-- One `added` source element (source lines 294-298). -/
def source_added_step (st : PPState) (fid : String) (source : SchemaElem) :
    Except PErr PPState := do
  if source.hasOverride then
    .error (.raised ("Partial parsing does not handle new source overrides: " ++ fid))
  else
    merge_patch_in st fid "sources" source

def sources_changed_loop (fid : String) :
    PPState → List SchemaElem → Except PErr PPState
  | st, [] => .ok st
  | st, s :: rest => do
    let st1 ← source_changed_step st fid s
    sources_changed_loop fid st1 rest

def sources_deleted_loop (fid : String) :
    PPState → List SchemaElem → Except PErr PPState
  | st, [] => .ok st
  | st, s :: rest => do
    let st1 ← source_deleted_step st fid s
    sources_deleted_loop fid st1 rest

def sources_added_loop (fid : String) :
    PPState → List SchemaElem → Except PErr PPState
  | st, [] => .ok st
  | st, s :: rest => do
    let st1 ← source_added_step st fid s
    sources_added_loop fid st1 rest

/-- The macros `changed` loop: source line 305 merges the stale `elem`
local bound by the models/seeds/snapshots/analyses loops (NameError when
none of those loops ran). -/
def macros_changed_loop (fid : String) (stale_elem : Option SchemaElem) :
    PPState → List SchemaElem → Except PErr PPState
  | st, [] => .ok st
  | st, mac_elem :: rest => do
    let st1 ← delete_schema_macro_patch st fid mac_elem
    match stale_elem with
    | none => .error (.nameError "elem")
    | some e => do
      let st2 ← merge_patch_in st1 fid "macros" e
      macros_changed_loop fid stale_elem st2 rest

def macros_deleted_loop (fid : String) :
    PPState → List SchemaElem → Except PErr PPState
  | st, [] => .ok st
  | st, mac_elem :: rest => do
    let st1 ← delete_schema_macro_patch st fid mac_elem
    macros_deleted_loop fid st1 rest

def macros_added_loop (fid : String) :
    PPState → List SchemaElem → Except PErr PPState
  | st, [] => .ok st
  | st, elem :: rest => do
    let st1 ← merge_patch_in st fid "macros" elem
    macros_added_loop fid st1 rest

def exposures_changed_loop (fid : String) :
    PPState → List SchemaElem → Except PErr PPState
  | st, [] => .ok st
  | st, e :: rest => do
    let sf ← fetch_saved_file st fid
    let st1 ← delete_schema_exposure st sf e
    let st2 ← merge_patch_in st1 fid "exposures" e
    exposures_changed_loop fid st2 rest

def exposures_deleted_loop (fid : String) :
    PPState → List SchemaElem → Except PErr PPState
  | st, [] => .ok st
  | st, e :: rest => do
    let sf ← fetch_saved_file st fid
    let st1 ← delete_schema_exposure st sf e
    exposures_deleted_loop fid st1 rest

def exposures_added_loop (fid : String) :
    PPState → List SchemaElem → Except PErr PPState
  | st, [] => .ok st
  | st, e :: rest => do
    let st1 ← merge_patch_in st fid "exposures" e
    exposures_added_loop fid st1 rest

/-- `handle_schema_file_changes(schema_file, saved_yaml_dict, new_yaml_dict)`. -/
def handle_schema_file_changes (st : PPState) (fid : String)
    (saved_yaml new_yaml : YamlDict) : Except PErr PPState := do
  let (st1, le1) ← handle_mssa_key fid "models" saved_yaml new_yaml st none
  let (st2, le2) ← handle_mssa_key fid "seeds" saved_yaml new_yaml st1 le1
  let (st3, le3) ← handle_mssa_key fid "snapshots" saved_yaml new_yaml st2 le2
  let (st4, le4) ← handle_mssa_key fid "analyses" saved_yaml new_yaml st3 le3
  let source_diff := get_diff_for "sources" saved_yaml new_yaml
  let st5 ← sources_changed_loop fid st4 source_diff.changed
  let st6 ← sources_deleted_loop fid st5 source_diff.deleted
  let st7 ← sources_added_loop fid st6 source_diff.added
  let macro_diff := get_diff_for "macros" saved_yaml new_yaml
  let st8 ← macros_changed_loop fid le4 st7 macro_diff.changed
  let st9 ← macros_deleted_loop fid st8 macro_diff.deleted
  let st10 ← macros_added_loop fid st9 macro_diff.added
  let exposure_diff := get_diff_for "exposures" saved_yaml new_yaml
  let st11 ← exposures_changed_loop fid st10 exposure_diff.changed
  let st12 ← exposures_deleted_loop fid st11 exposure_diff.deleted
  exposures_added_loop fid st12 exposure_diff.added

/-- `change_schema_file(file_id)`. -/
def change_schema_file (st : PPState) (file_id : String) :
    Except PErr PPState := do
  let saved_schema_file ← fetch_saved_file st file_id
  let new_schema_file ← fetch_new_file st file_id
  let saved_yaml_dict := saved_schema_file.dfy
  let new_yaml_dict := new_schema_file.dfy
  let st1 := set_saved_file st file_id
    { saved_schema_file with
      pp_dict := some { version := saved_yaml_dict.version, sections := [] } }
  let st2 ← handle_schema_file_changes st1 file_id saved_yaml_dict new_yaml_dict
  let sf2 ← fetch_saved_file st2 file_id
  let sf3 := { sf2 with contents := new_schema_file.contents,
                        checksum := new_schema_file.checksum,
                        dfy := new_schema_file.dfy }
  let st3 := set_saved_file st2 file_id sf3
  add_to_pp_files st3 sf3

/-- `delete_schema_file(file_id)`: the section diff against the empty
document, then the file entry moves to the removed manifest. -/
def delete_schema_file (st : PPState) (file_id : String) :
    Except PErr PPState := do
  let saved_schema_file ← fetch_saved_file st file_id
  let st1 ← handle_schema_file_changes st file_id saved_schema_file.dfy empty_yaml
  pop_saved_file_to_deleted st1 file_id

/-! ## Orchestration -/

def run_file_loop (f : PPState → String → Except PErr PPState) :
    PPState → List String → Except PErr PPState
  | st, [] => .ok st
  | st, i :: rest => do
    let st1 ← f st i
    run_file_loop f st1 rest

/-- `get_parsing_files()`: the returned schedule together with the final
state. -/
def get_parsing_files (st : PPState) :
    Except PErr (List (String × List (String × List String)) × PPState) :=
  if skip_parsing st then .ok ([], st)
  else do
    let st1 ← run_file_loop add_to_saved st st.file_diff.added
    let st2 ← run_file_loop change_schema_file st1 st1.file_diff.changed_schema_files
    let st3 ← run_file_loop delete_schema_file st2 st2.file_diff.deleted_schema_files
    let st4 ← run_file_loop delete_from_saved st3 st3.file_diff.deleted
    let st5 ← run_file_loop update_in_saved st4 st4.file_diff.changed
    .ok (st5.project_parser_files, st5)

/-! ## Concrete inputs for the claim theorems -/

def empty_diff : FileDiff :=
  { deleted := [], deleted_schema_files := [], added := [], changed := [],
    changed_schema_files := [], unchanged := [] }

def c1_state : PPState :=
  { saved_manifest := Manifest.empty, new_files := [],
    project_parser_files := [], deleted_manifest := Manifest.empty,
    file_diff := empty_diff }

def count_named (elems : List SchemaElem) (n : String) : Nat :=
  (elems.filter (fun e => e.name == n)).length

def pp_section (sf : SourceFile) (key : String) : List SchemaElem :=
  match sf.pp_dict with
  | none => []
  | some d => (alookup d.sections key).getD []

def c8_sf : SourceFile :=
  { file_id := "test://models/schema.yml", project_name := "test",
    parse_file_type := .Schema, checksum := "abc", contents := "",
    schema_source_class := true, nodes := [], macros := [], docs := [],
    dfy := { version := "2", sections := [] }, pp_dict := none,
    node_patches := [], macro_patches := [], tests := [], sources := [],
    exposures := [], pp_test_index := none }

def c8_patch : SchemaElem :=
  { name := "my_model", hasOverride := false, body := "cfg" }

def mk_section_yaml (key : String) (elems : List SchemaElem) : YamlDict :=
  { version := "2", sections := [(key, elems)] }

def c10_elem_a : SchemaElem := { name := "m1", hasOverride := false, body := "a" }

def c10_elem_b : SchemaElem := { name := "m1", hasOverride := false, body := "b" }

def c6_override_elem : SchemaElem := { name := "src1", hasOverride := true, body := "" }

/-- The parse tree of a template containing
`adapter.dispatch(\x27current_timestamp\x27, packages=[\x27dbt_utils\x27])`. -/
def c2_dispatch_call : JinjaExpr :=
  .call (.getattr (.name "adapter") "dispatch")
    [.const "current_timestamp"]
    [("packages", .jlist [.const "dbt_utils"])]

def empty_ctx : JinjaCtx := { get := fun _ => false, var_lookup := fun _ => none }

def c2_resolver : DbWrapper :=
  { dispatch := fun n ps =>
      if n == some "current_timestamp" && ps == some ["dbt_utils"] then
        { package_name := "dbt_utils", name := "default__current_timestamp" }
      else { package_name := "other", name := "other" } }

/-- The parse tree of a template containing
`adapter.dispatch(\x27foo\x27, packages=some_custom_macro())`: the packages
value is a call whose callee is a bare name. -/
def c5_bare_call_root : JinjaExpr :=
  .call (.getattr (.name "adapter") "dispatch")
    [.const "foo"]
    [("packages", .call (.name "some_custom_macro") [] [])]

def c9_source_entity : SourceEntity := { name := "table1", source_name := "src1" }

def c9_schema_file : SourceFile :=
  { file_id := "test://models/schema.yml", project_name := "test",
    parse_file_type := .Schema, checksum := "abc", contents := "",
    schema_source_class := true, nodes := [], macros := [], docs := [],
    dfy := { version := "2", sections := [] }, pp_dict := none,
    node_patches := [], macro_patches := [], tests := [],
    sources := ["source.test.src1.table1"], exposures := [],
    pp_test_index := none }

def c9_state : PPState :=
  { saved_manifest := { Manifest.empty with
      sources := [("source.test.src1.table1", c9_source_entity)],
      files := [("test://models/schema.yml", c9_schema_file)] },
    new_files := [], project_parser_files := [],
    deleted_manifest := Manifest.empty, file_diff := empty_diff }

def c9_src_elem : SchemaElem := { name := "src1", hasOverride := false, body := "" }

def c9_state_with_exposure : PPState :=
  { c9_state with saved_manifest := { c9_state.saved_manifest with
      exposures := [("source.test.src1.table1",
        { name := "exp1", source_name := "irrelevant" })] } }

def c3_macro_a : ManifestMacro :=
  { file_id := "pkg://macros/a.sql", depends_on := { nodes := [], macros := [] } }

def c3_macro_b : ManifestMacro :=
  { file_id := "pkg://macros/b.sql",
    depends_on := { nodes := [], macros := ["macro.pkg.m_a"] } }

def c3_file_a : SourceFile :=
  { file_id := "pkg://macros/a.sql", project_name := "pkg",
    parse_file_type := .Macro, checksum := "a", contents := "",
    schema_source_class := false, nodes := [], macros := ["macro.pkg.m_a"],
    docs := [], dfy := empty_yaml, pp_dict := none, node_patches := [],
    macro_patches := [], tests := [], sources := [], exposures := [],
    pp_test_index := none }

def c3_file_b : SourceFile :=
  { file_id := "pkg://macros/b.sql", project_name := "pkg",
    parse_file_type := .Macro, checksum := "b", contents := "",
    schema_source_class := false, nodes := [], macros := ["macro.pkg.m_b"],
    docs := [], dfy := empty_yaml, pp_dict := none, node_patches := [],
    macro_patches := [], tests := [], sources := [], exposures := [],
    pp_test_index := none }

def c3_state : PPState :=
  { saved_manifest := { Manifest.empty with
      macros := [("macro.pkg.m_a", c3_macro_a), ("macro.pkg.m_b", c3_macro_b)],
      files := [("pkg://macros/a.sql", c3_file_a), ("pkg://macros/b.sql", c3_file_b)] },
    new_files := [], project_parser_files := [],
    deleted_manifest := Manifest.empty, file_diff := empty_diff }

/-- The scheduler invariant: per sub-project and parser kind, the file-id
list has no duplicates and contains no id from the deleted bucket. -/
def schedule_inv (pp : List (String × List (String × List String)))
    (deleted : List String) : Prop :=
  ∀ proj pl, alookup pp proj = some pl →
    ∀ pn l, alookup pl pn = some l → l.Nodup ∧ ∀ i ∈ l, i ∉ deleted

/-- An arbitrary sequence of `add_to_pp_files` calls, as the cascade
components issue them. -/
def add_files_loop : PPState → List SourceFile → Except PErr PPState
  | st, [] => .ok st
  | st, sf :: rest => do
    let st1 ← add_to_pp_files st sf
    add_files_loop st1 rest

def c7_file_a : SourceFile :=
  { file_id := "proj://models/a.sql", project_name := "proj",
    parse_file_type := .Model, checksum := "a", contents := "",
    schema_source_class := false, nodes := ["model.proj.a"], macros := [],
    docs := [], dfy := empty_yaml, pp_dict := none, node_patches := [],
    macro_patches := [], tests := [], sources := [], exposures := [],
    pp_test_index := none }

def c7_file_b : SourceFile :=
  { c7_file_a with file_id := "proj://models/b.sql", nodes := ["model.proj.b"] }

def c7_file_gone : SourceFile :=
  { c7_file_a with file_id := "gone", nodes := [] }

def c7_state0 : PPState :=
  { saved_manifest := Manifest.empty, new_files := [],
    project_parser_files := [], deleted_manifest := Manifest.empty,
    file_diff := { empty_diff with deleted := ["gone"] } }

def c7_state1 : PPState :=
  { c7_state0 with project_parser_files :=
      [("proj", [("ModelParser", ["proj://models/a.sql", "proj://models/b.sql"])])] }

def c7_bad_file : SourceFile :=
  { c7_file_a with file_id := "bad", project_name := "" }

/-- Whether a test node's first upstream dependency ends in the given
element name (the membership criterion of the lazily built test index). -/
def test_matches (nodes : List (String × ManifestNode)) (nm : String)
    (t : String) : Bool :=
  match alookup nodes t with
  | some tn =>
    match tn.depends_on.nodes.head? with
    | some dep => last_dot_part dep == nm
    | none => false
  | none => false

/-- The test ids of a schema file owned by one element name. -/
def tests_matching (nodes : List (String × ManifestNode)) (tests : List String)
    (nm : String) : List String :=
  tests.filter (test_matches nodes nm)

def idx_combine (o : Option (List String)) (ms : List String) :
    Option (List String) :=
  match o, ms with
  | none, [] => none
  | none, ms => some ms
  | some l, ms => some (l ++ ms)

def c4_node : ManifestNode :=
  { name := "my_model", file_id := "test://models/my_model.sql",
    patch_path := some "test://models/schema.yml",
    depends_on := { nodes := [], macros := [] } }

def c4_tnode1 : ManifestNode :=
  { name := "t1", file_id := "test://models/schema.yml",
    patch_path := none,
    depends_on := { nodes := ["model.test.my_model"], macros := [] } }

def c4_tnode2 : ManifestNode :=
  { name := "t2", file_id := "test://models/schema.yml",
    patch_path := none,
    depends_on := { nodes := ["model.test.my_model"], macros := [] } }

def c4_elem : SchemaElem :=
  { name := "my_model", hasOverride := false, body := "cfg" }

def c4_schema_file : SourceFile :=
  { file_id := "test://models/schema.yml", project_name := "test",
    parse_file_type := .Schema, checksum := "s", contents := "",
    schema_source_class := true, nodes := [], macros := [], docs := [],
    dfy := { version := "2", sections := [("models", [c4_elem])] },
    pp_dict := none,
    node_patches := ["model.test.my_model"], macro_patches := [],
    tests := ["test.test.t1", "test.test.t2"], sources := [],
    exposures := [], pp_test_index := none }

def c4_model_file : SourceFile :=
  { file_id := "test://models/my_model.sql", project_name := "test",
    parse_file_type := .Model, checksum := "m", contents := "select 1",
    schema_source_class := false, nodes := ["model.test.my_model"],
    macros := [], docs := [], dfy := { version := "", sections := [] },
    pp_dict := none, node_patches := [], macro_patches := [], tests := [],
    sources := [], exposures := [], pp_test_index := none }

def c4_state : PPState :=
  { saved_manifest := { Manifest.empty with
      nodes := [("model.test.my_model", c4_node),
                ("test.test.t1", c4_tnode1),
                ("test.test.t2", c4_tnode2)],
      files := [("test://models/schema.yml", c4_schema_file)] },
    new_files := [], project_parser_files := [],
    deleted_manifest := Manifest.empty, file_diff := empty_diff }

/-! ## Association-list lemmas -/

theorem alookup_aset {α : Type} (m : List (String × α)) (k k' : String) (v : α) :
    alookup (aset m k v) k' = if k = k' then some v else alookup m k' := by
  induction m with
  | nil => simp [aset, alookup]
  | cons p rest ih =>
    obtain ⟨pk, pv⟩ := p
    by_cases hpk : pk = k
    · subst hpk
      simp [aset, alookup]
      by_cases hkk : pk = k' <;> simp [hkk]
    · simp [aset, hpk, alookup]
      by_cases hpk' : pk = k'
      · subst hpk'
        have : ¬ k = pk := fun h => hpk h.symm
        simp [this, alookup]
      · simp [hpk', ih]

theorem alookup_filter_ne {α : Type} (m : List (String × α)) (k k' : String)
    (h : k' ≠ k) :
    alookup (m.filter (fun p => p.1 != k)) k' = alookup m k' := by
  induction m with
  | nil => rfl
  | cons p rest ih =>
    obtain ⟨pk, pv⟩ := p
    by_cases hpk : pk = k
    · subst hpk
      have hne : ¬ pk = k' := fun hh => h hh.symm
      simp [List.filter_cons, alookup, hne, ih]
    · by_cases hpk' : pk = k'
      · subst hpk'
        simp [List.filter_cons, bne_iff_ne, hpk, alookup]
      · simp [List.filter_cons, bne_iff_ne, hpk, alookup, hpk', ih]

theorem alookup_filter_self {α : Type} (m : List (String × α)) (k : String) :
    alookup (m.filter (fun p => p.1 != k)) k = none := by
  induction m with
  | nil => rfl
  | cons p rest ih =>
    obtain ⟨pk, pv⟩ := p
    by_cases hpk : pk = k
    · subst hpk
      simp [List.filter_cons, ih]
    · simp [List.filter_cons, bne_iff_ne, hpk, alookup, ih]

/-! ## Reduction lemmas for the Except monad -/

theorem except_bind_ok {e a b : Type} (x : a) (f : a → Except e b) :
    (Except.ok x : Except e a) >>= f = f x := rfl

theorem except_bind_error {e a b : Type} (err : e) (f : a → Except e b) :
    (Except.error err : Except e a) >>= f = Except.error err := rfl

theorem except_pure_eq {e a : Type} (x : a) :
    (pure x : Except e a) = Except.ok x := rfl

/-! ## Claim C1: the no-change fast path -/

/-- C1: `skip_parsing` is true iff all five change buckets are empty, and
when it is true `get_parsing_files` returns the empty schedule and the
state — in particular every mapping of the saved manifest — unchanged. -/
theorem c1_skip_fast_path (st : PPState) :
    (skip_parsing st = true ↔
      (st.file_diff.deleted = [] ∧ st.file_diff.added = [] ∧
       st.file_diff.changed = [] ∧ st.file_diff.changed_schema_files = [] ∧
       st.file_diff.deleted_schema_files = [])) ∧
    (skip_parsing st = true → get_parsing_files st = .ok ([], st)) := by
  constructor
  · simp [skip_parsing, List.isEmpty_iff, and_assoc]
  · intro h
    simp [get_parsing_files, h]

theorem c1_skip_fast_path_witness :
    skip_parsing c1_state = true ∧ get_parsing_files c1_state = .ok ([], c1_state) :=
  ⟨rfl, (c1_skip_fast_path c1_state).2 rfl⟩

/-! ## Claim C8: merge_patch idempotence and lazy seeding -/

/-- C8: `merge_patch` is idempotent in the element name — a second merge of
the same-named element changes nothing — the pending-patch document is
lazily seeded with the version marker on first use, and a name not yet
queued ends up queued exactly once. -/
theorem c8_merge_patch_idempotent (sf : SourceFile) (key : String)
    (patch : SchemaElem) :
    merge_patch (merge_patch sf key patch) key patch = merge_patch sf key patch ∧
    (sf.pp_dict = none →
      (merge_patch sf key patch).pp_dict =
        some { version := sf.dfy.version, sections := [(key, [patch])] }) ∧
    (count_named (pp_section sf key) patch.name = 0 →
      count_named (pp_section (merge_patch sf key patch) key) patch.name = 1) := by
  refine ⟨?_, ?_, ?_⟩
  · cases hpd : sf.pp_dict with
    | none =>
      cases hk : alookup (aset ([] : List (String × List SchemaElem)) key [patch]) key with
      | none => simp [alookup_aset] at hk
      | some elems =>
        simp [merge_patch, hpd, aset, alookup]
    | some d =>
      cases hk : alookup d.sections key with
      | none =>
        simp [merge_patch, hpd, hk, alookup_aset]
      | some elems =>
        by_cases hfound : elems.any (fun e => e.name == patch.name)
        · simp [merge_patch, hpd, hk, hfound]
        · simp [merge_patch, hpd, hk, hfound, alookup_aset, List.any_append]
  · intro h
    simp [merge_patch, h, aset, alookup]
  · intro h
    cases hpd : sf.pp_dict with
    | none =>
      simp [merge_patch, hpd, aset, alookup, count_named, pp_section]
    | some d =>
      cases hk : alookup d.sections key with
      | none =>
        simp [merge_patch, hpd, hk, pp_section, alookup_aset, count_named]
      | some elems =>
        have hcount : count_named elems patch.name = 0 := by
          simpa [pp_section, hpd, hk] using h
        have hany : elems.any (fun e => e.name == patch.name) = false := by
          rw [List.any_eq_false]
          intro e he
          by_contra hne
          have : e ∈ elems.filter (fun e => e.name == patch.name) := by
            rw [List.mem_filter]
            exact ⟨he, by simpa using hne⟩
          have : 0 < count_named elems patch.name := by
            unfold count_named
            exact List.length_pos.mpr (fun hnil => by simp [hnil] at this)
          omega
        simp only [merge_patch, hpd, hk, hany, pp_section, alookup_aset,
          if_pos rfl, Bool.false_eq_true, if_false, Option.getD_some]
        simp only [count_named, List.filter_append] at hcount ⊢
        simp [hcount]

theorem c8_merge_patch_idempotent_witness :
    (c8_sf.pp_dict = none ∧
      count_named (pp_section c8_sf "models") c8_patch.name = 0) ∧
    merge_patch (merge_patch c8_sf "models" c8_patch) "models" c8_patch =
      merge_patch c8_sf "models" c8_patch ∧
    (merge_patch c8_sf "models" c8_patch).pp_dict =
      some { version := c8_sf.dfy.version,
             sections := [("models", [c8_patch])] } ∧
    count_named (pp_section (merge_patch c8_sf "models" c8_patch) "models")
      c8_patch.name = 1 :=
  ⟨⟨rfl, rfl⟩,
    (c8_merge_patch_idempotent c8_sf "models" c8_patch).1,
    (c8_merge_patch_idempotent c8_sf "models" c8_patch).2.1 rfl,
    (c8_merge_patch_idempotent c8_sf "models" c8_patch).2.2 rfl⟩

/-! ## Claim C10: duplicate-name elements, last occurrence wins -/

theorem elements_by_name_foldl (elems : List SchemaElem)
    (acc : List (String × SchemaElem)) (n : String) :
    alookup (elems.foldl (fun m e => aset m e.name e) acc) n =
      match elems.reverse.find? (fun e => e.name == n) with
      | some e => some e
      | none => alookup acc n := by
  induction elems generalizing acc with
  | nil => simp
  | cons e rest ih =>
    simp only [List.foldl_cons, List.reverse_cons, List.find?_append]
    rw [ih]
    cases hr : rest.reverse.find? (fun e => e.name == n) with
    | some e' => simp [hr]
    | none =>
      simp only [hr, Option.none_orElse]
      by_cases hn : e.name = n
      · simp [List.find?, hn, alookup_aset]
      · have hb : (e.name == n) = false := by simp [hn]
        simp [List.find?, hb, alookup_aset, Ne.symm hn]
        exact fun hc => absurd hc hn

/-- C10: in the name-to-element maps built by `get_diff_for`, a later
element with the same name overwrites an earlier one (the lookup is the
LAST matching element), so an earlier duplicate is ignored by the
added/deleted/changed classification, on the saved side and the new side
alike. -/
theorem c10_duplicate_names_last_wins (key : String) (e1 e2 : SchemaElem)
    (h : e1.name = e2.name) (other : YamlDict) (elems : List SchemaElem)
    (n : String) :
    alookup (elements_by_name elems) n =
      elems.reverse.find? (fun e => e.name == n) ∧
    get_diff_for key (mk_section_yaml key [e1, e2]) other =
      get_diff_for key (mk_section_yaml key [e2]) other ∧
    get_diff_for key other (mk_section_yaml key [e1, e2]) =
      get_diff_for key other (mk_section_yaml key [e2]) := by
  have hmap : elements_by_name [e1, e2] = elements_by_name [e2] := by
    simp [elements_by_name, aset, h]
  have h1 : ∀ l : List SchemaElem, acontains (mk_section_yaml key l).sections key = true := by
    intro l
    simp [mk_section_yaml, acontains, alookup]
  have h2 : ∀ l : List SchemaElem, alookup (mk_section_yaml key l).sections key = some l := by
    intro l
    simp [mk_section_yaml, alookup]
  refine ⟨?_, ?_, ?_⟩
  · rw [elements_by_name, elements_by_name_foldl]
    cases elems.reverse.find? (fun e => e.name == n) <;> rfl
  · simp [get_diff_for, h1, h2, hmap]
  · simp [get_diff_for, h1, h2, hmap]

theorem c10_duplicate_names_last_wins_witness :
    alookup (elements_by_name [c10_elem_a, c10_elem_b]) "m1" =
      [c10_elem_a, c10_elem_b].reverse.find? (fun e => e.name == "m1") ∧
    get_diff_for "models" (mk_section_yaml "models" [c10_elem_a, c10_elem_b]) empty_yaml =
      get_diff_for "models" (mk_section_yaml "models" [c10_elem_b]) empty_yaml ∧
    get_diff_for "models" empty_yaml (mk_section_yaml "models" [c10_elem_a, c10_elem_b]) =
      get_diff_for "models" empty_yaml (mk_section_yaml "models" [c10_elem_b]) :=
  c10_duplicate_names_last_wins "models" c10_elem_a c10_elem_b rfl empty_yaml
    [c10_elem_a, c10_elem_b] "m1"

/-! ## Claim C6: source overrides are rejected -/

/-- C6: a changed, deleted or added source element carrying an `override`
key makes the corresponding diffing loop fail immediately with the
unsupported-source-override error, before any unlink or merge is applied
for that element (the error is raised at the head of the loop body,
whatever follows in the list). -/
theorem c6_source_override_rejected (st : PPState) (fid : String)
    (e : SchemaElem) (es : List SchemaElem) (h : e.hasOverride = true) :
    sources_changed_loop fid st (e :: es) =
      .error (.raised ("Partial parsing does not handle changed source overrides: " ++ fid)) ∧
    sources_deleted_loop fid st (e :: es) =
      .error (.raised ("Partial parsing does not handle deleted source overrides: " ++ fid)) ∧
    sources_added_loop fid st (e :: es) =
      .error (.raised ("Partial parsing does not handle new source overrides: " ++ fid)) := by
  refine ⟨?_, ?_, ?_⟩ <;>
  · simp only [sources_changed_loop, sources_deleted_loop, sources_added_loop,
      source_changed_step, source_deleted_step, source_added_step, h, if_true]
    rfl

theorem c6_source_override_rejected_witness :
    sources_changed_loop "f1" c1_state [c6_override_elem] =
      .error (.raised ("Partial parsing does not handle changed source overrides: " ++ "f1")) ∧
    sources_deleted_loop "f1" c1_state [c6_override_elem] =
      .error (.raised ("Partial parsing does not handle deleted source overrides: " ++ "f1")) ∧
    sources_added_loop "f1" c1_state [c6_override_elem] =
      .error (.raised ("Partial parsing does not handle new source overrides: " ++ "f1")) :=
  c6_source_override_rejected c1_state "f1" c6_override_elem [] rfl

/-- C2 counterexample: extraction on the dispatch template returns TWO
entries — the bare macro name is appended by the dispatch parser before
the resolved id — not the one-element collection the claim states. -/
theorem c2_counterexample :
    statically_extract_macro_calls c2_dispatch_call empty_ctx (some c2_resolver) =
      .ok ["current_timestamp", "dbt_utils.default__current_timestamp"] ∧
    statically_extract_macro_calls c2_dispatch_call empty_ctx (some c2_resolver) ≠
      .ok ["dbt_utils.default__current_timestamp"] := by
  refine ⟨rfl, fun h => absurd (Except.ok.inj h) (by decide)⟩

/-! ## Claim C2: adapter.dispatch extraction (corrected) -/

/-- C2 amended: for the dispatch template and any resolver mapping
(`current_timestamp`, [`dbt_utils`]) to `dbt_utils.default__current_timestamp`,
extraction returns exactly the two-element ordered collection
[`current_timestamp`, `dbt_utils.default__current_timestamp`] — the
resolved id preceded by the bare macro name — whatever the context. -/
theorem c2_dispatch_extraction (ctx : JinjaCtx) (w : DbWrapper)
    (h : w.dispatch (some "current_timestamp") (some ["dbt_utils"]) =
      { package_name := "dbt_utils", name := "default__current_timestamp" }) :
    statically_extract_macro_calls c2_dispatch_call ctx (some w) =
      .ok ["current_timestamp", "dbt_utils.default__current_timestamp"] := by
  simp only [statically_extract_macro_calls, c2_dispatch_call, find_all_calls,
    find_all_calls_list, find_all_calls_pairs, extract_loop, process_call,
    statically_parse_adapter_dispatch, dispatch_kwargs_loop, dispatch_packages,
    list_item_values, const_value, List.head?, except_bind_ok, except_bind_error,
    except_pure_eq, List.append_nil, List.nil_append, List.cons_append,
    String.reduceEq, reduceIte, List.isEmpty_cons, Bool.false_eq_true, if_false, h]
  rfl

theorem c2_dispatch_extraction_witness :
    statically_extract_macro_calls c2_dispatch_call empty_ctx (some c2_resolver) =
      .ok ["current_timestamp", "dbt_utils.default__current_timestamp"] :=
  c2_dispatch_extraction empty_ctx c2_resolver rfl

/-! ## Claim C5: unsupported packages= argument (corrected) -/

/-- C5 counterexample: with `packages=some_custom_macro()` as written in
the claim — a call whose callee is a bare name — extraction does NOT fail:
the `hasattr` guard silently skips the packages argument and the walk also
records the inner call, returning ok with two names. -/
theorem c5_counterexample :
    statically_extract_macro_calls c5_bare_call_root empty_ctx none =
      .ok ["foo", "some_custom_macro"] := rfl

/-- C5 amended: the unsupported-packages rejection fires exactly for an
attribute-shaped call `ns.attr(...)` in the packages argument whose
attribute fails the namespace-fetch pattern; then dispatch parsing fails
with the compiler error naming the offending attribute (a bare-name call
is silently ignored instead, per the counterexample). -/
theorem c5_unsupported_packages (ctx : JinjaCtx) (dbw : Option DbWrapper)
    (pn attr_name : String) (cargs : List JinjaExpr)
    (ckwargs : List (String × JinjaExpr))
    (h : (str_startswith attr_name "_get" && contains_namespaces attr_name) = false) :
    statically_parse_adapter_dispatch [.const "foo"]
      [("packages", .call (.getattr (.name pn) attr_name) cargs ckwargs)]
      ctx dbw =
      .error (.compilerError (unsupported_packages_msg attr_name)) := by
  simp only [statically_parse_adapter_dispatch, dispatch_kwargs_loop,
    dispatch_packages, const_value, List.head?, except_bind_ok, except_bind_error,
    except_pure_eq, h, Bool.false_eq_true, if_false, String.reduceEq, reduceIte]

theorem c5_unsupported_packages_witness :
    statically_parse_adapter_dispatch [.const "foo"]
      [("packages", .call (.getattr (.name "local_utils") "fetch_stuff") [] [])]
      empty_ctx none =
      .error (.compilerError (unsupported_packages_msg "fetch_stuff")) :=
  c5_unsupported_packages empty_ctx none "local_utils" "fetch_stuff" [] [] (by decide)

/-! ## Claim C9: delete_schema_source pops the wrong mapping (code bug) -/

/-- C9: deleting the source section element `src1` does NOT remove the
matching entity from the saved manifest's sources mapping.  Source line
520 pops the EXPOSURES mapping instead: when the id is not among the
exposures the call dies with KeyError (first conjunct), and when an
exposure entry happens to share the id, the exposures mapping — not the
sources mapping — loses the entry (remaining conjuncts). -/
theorem c9_delete_schema_source_bug :
    delete_schema_source c9_state c9_schema_file c9_src_elem =
      .error (.keyError "source.test.src1.table1") ∧
    (delete_schema_source c9_state_with_exposure c9_schema_file c9_src_elem).map
        (fun st => (st.saved_manifest.sources, st.saved_manifest.exposures,
          st.deleted_manifest.sources)) =
      .ok ([("source.test.src1.table1", c9_source_entity)], [],
        [("source.test.src1.table1",
          { name := "exp1", source_name := "irrelevant" })]) :=
  ⟨rfl, rfl⟩

/-- C3: removing macro file A moves its macro `macro.pkg.m_a` from the
saved to the removed manifest, but the dependent scan schedules NOTHING —
macro `macro.pkg.m_b` depends on the removed id, yet its owning file B is
not added to the reparse schedule, because the guard
`macro_unique_id in self.saved_manifest.macros` is tested after the id
was popped and can never hold. -/
theorem c3_macro_dependents_not_scheduled :
    (handle_macro_file_links c3_state c3_file_a).map
      (fun st => (st.saved_manifest.macros, st.deleted_manifest.macros,
        st.project_parser_files)) =
    .ok ([("macro.pkg.m_b", c3_macro_b)], [("macro.pkg.m_a", c3_macro_a)],
      []) := rfl

/-! ## Claim C3: macro dependents are never scheduled (code bug) -/

theorem macro_dep_inner_no_uid (uid : String) (mac : ManifestMacro) :
    ∀ (deps : List String) (st : PPState),
      acontains st.saved_manifest.macros uid = false →
      macro_dep_inner uid mac st deps = .ok st := by
  intro deps
  induction deps with
  | nil => intro st h; rfl
  | cons d rest ih =>
    intro st h
    rw [macro_dep_inner]
    by_cases hd : d == uid
    · have : acontains st.saved_manifest.macros d = false := by
        rw [show d = uid from by simpa using hd]
        exact h
      simp [hd, this, except_bind_ok, ih st h]
    · simp [hd, except_bind_ok, ih st h]

theorem node_dep_inner_no_uid (uid : String) (node : ManifestNode) :
    ∀ (deps : List String) (st : PPState),
      acontains st.saved_manifest.macros uid = false →
      node_dep_inner uid node st deps = .ok st := by
  intro deps
  induction deps with
  | nil => intro st h; rfl
  | cons d rest ih =>
    intro st h
    rw [node_dep_inner]
    by_cases hd : d == uid
    · have : acontains st.saved_manifest.macros d = false := by
        rw [show d = uid from by simpa using hd]
        exact h
      simp [hd, this, except_bind_ok, ih st h]
    · simp [hd, except_bind_ok, ih st h]

theorem macro_dep_scan_no_uid (uid : String) :
    ∀ (ms : List (String × ManifestMacro)) (st : PPState),
      acontains st.saved_manifest.macros uid = false →
      macro_dep_scan uid st ms = .ok st := by
  intro ms
  induction ms with
  | nil => intro st h; rfl
  | cons p rest ih =>
    intro st h
    rw [macro_dep_scan]
    rw [macro_dep_inner_no_uid uid p.2 p.2.depends_on.macros st h]
    simpa [except_bind_ok] using ih st h

theorem node_dep_scan_no_uid (uid : String) :
    ∀ (ns : List (String × ManifestNode)) (st : PPState),
      acontains st.saved_manifest.macros uid = false →
      node_dep_scan uid st ns = .ok st := by
  intro ns
  induction ns with
  | nil => intro st h; rfl
  | cons p rest ih =>
    intro st h
    rw [node_dep_scan]
    rw [node_dep_inner_no_uid uid p.2 p.2.depends_on.macros st h]
    simpa [except_bind_ok] using ih st h

/-- The dependent scans of `handle_macro_file_links` never schedule
anything: the whole loop leaves `project_parser_files` unchanged. -/
theorem handle_macro_file_links_pp_unchanged :
    ∀ (uids : List String) (st st' : PPState),
      handle_macro_file_links_loop st uids = .ok st' →
      st'.project_parser_files = st.project_parser_files := by
  intro uids
  induction uids with
  | nil =>
    intro st st' h
    cases h
    rfl
  | cons uid rest ih =>
    intro st st' h
    rw [handle_macro_file_links_loop] at h
    cases hpop : apop st.saved_manifest.macros uid with
    | none => simp [hpop] at h
    | some pr =>
      obtain ⟨mac, macs⟩ := pr
      have hmacs : macs = st.saved_manifest.macros.filter (fun p => p.1 != uid) := by
        unfold apop at hpop
        cases hl : alookup st.saved_manifest.macros uid with
        | none => rw [hl] at hpop; cases hpop
        | some v =>
          rw [hl] at hpop
          cases hpop
          rfl
      have hnc : acontains macs uid = false := by
        rw [hmacs]
        simp [acontains, alookup_filter_self]
      simp only [hpop, macro_dep_scan_no_uid uid, node_dep_scan_no_uid uid,
        except_bind_ok, hnc] at h
      simpa using ih _ _ h

/-! ## Claim C7: the schedule invariant of add_to_pp_files -/

theorem schedule_extend_ok (base : List String) (fid : String)
    (deleted : List String) (hnd : base.Nodup)
    (hdel : ∀ i ∈ base, i ∉ deleted) :
    (if (!base.contains fid && !deleted.contains fid) = true
      then base ++ [fid] else base).Nodup ∧
    ∀ i ∈ (if (!base.contains fid && !deleted.contains fid) = true
      then base ++ [fid] else base), i ∉ deleted := by
  by_cases hc : (!base.contains fid && !deleted.contains fid) = true
  · simp only [if_pos hc]
    obtain ⟨h1, h2⟩ : base.contains fid = false ∧ deleted.contains fid = false := by
      rw [Bool.and_eq_true, Bool.not_eq_true', Bool.not_eq_true'] at hc
      exact hc
    have hmem : fid ∉ base := by simpa using h1
    have hdel2 : fid ∉ deleted := by simpa using h2
    constructor
    · rw [show base ++ [fid] = base.concat fid by simp]
      exact List.Nodup.concat hmem hnd
    · intro i hi
      rcases List.mem_append.mp hi with hi0 | hi1
      · exact hdel i hi0
      · simp at hi1
        subst hi1
        exact hdel2
  · simp only [if_neg hc]
    exact ⟨hnd, hdel⟩

theorem add_to_pp_files_step (st : PPState) (sf : SourceFile) (st1 : PPState)
    (hok : add_to_pp_files st sf = .ok st1) :
    st1.file_diff = st.file_diff ∧ st1.saved_manifest = st.saved_manifest ∧
    (schedule_inv st.project_parser_files st.file_diff.deleted →
      schedule_inv st1.project_parser_files st1.file_diff.deleted) := by
  unfold add_to_pp_files at hok
  by_cases hc : parse_file_type_to_parser_name sf.parse_file_type = "" ∨
      sf.project_name = ""
  · simp [hc] at hok
  · rw [if_neg hc] at hok
    cases hok
    refine ⟨rfl, rfl, ?_⟩
    intro hinv proj pl hproj pn l hpn
    simp only [] at hproj hpn ⊢
    rw [alookup_aset] at hproj
    by_cases hp1 : sf.project_name = proj
    · rw [if_pos hp1] at hproj
      cases hproj
      rw [alookup_aset] at hpn
      by_cases hp2 : parse_file_type_to_parser_name sf.parse_file_type = pn
      · rw [if_pos hp2] at hpn
        cases hpn
        have hbase : ((alookup ((alookup st.project_parser_files
            sf.project_name).getD [])
            (parse_file_type_to_parser_name sf.parse_file_type)).getD []).Nodup ∧
            ∀ i ∈ ((alookup ((alookup st.project_parser_files
              sf.project_name).getD [])
              (parse_file_type_to_parser_name sf.parse_file_type)).getD []),
              i ∉ st.file_diff.deleted := by
          cases hlp : alookup st.project_parser_files sf.project_name with
          | none => simp [hlp, alookup]
          | some pl0 =>
            cases hll : alookup pl0 (parse_file_type_to_parser_name
                sf.parse_file_type) with
            | none => simp [hlp, hll]
            | some l0 =>
              simpa [hlp, hll] using hinv sf.project_name pl0 hlp _ l0 hll
        exact schedule_extend_ok _ _ _ hbase.1 hbase.2
      · rw [if_neg hp2] at hpn
        cases hlp : alookup st.project_parser_files sf.project_name with
        | none =>
          rw [hlp] at hpn
          simp [alookup] at hpn
        | some pl0 =>
          rw [hlp] at hpn
          simp only [Option.getD_some] at hpn
          exact hinv sf.project_name pl0 hlp pn l hpn
    · rw [if_neg hp1] at hproj
      exact hinv proj pl hproj pn l hpn

theorem add_files_loop_inv : ∀ (fs : List SourceFile) (st st' : PPState),
    add_files_loop st fs = .ok st' →
    st'.file_diff = st.file_diff ∧ st'.saved_manifest = st.saved_manifest ∧
    (schedule_inv st.project_parser_files st.file_diff.deleted →
      schedule_inv st'.project_parser_files st'.file_diff.deleted) := by
  intro fs
  induction fs with
  | nil =>
    intro st st' h
    cases h
    exact ⟨rfl, rfl, id⟩
  | cons sf rest ih =>
    intro st st' h
    rw [add_files_loop] at h
    cases hstep : add_to_pp_files st sf with
    | error e =>
      rw [hstep] at h
      simp [except_bind_error] at h
    | ok st1 =>
      rw [hstep, except_bind_ok] at h
      obtain ⟨hfd, hsm, hi⟩ := add_to_pp_files_step st sf st1 hstep
      obtain ⟨hfd2, hsm2, hi2⟩ := ih st1 st' h
      exact ⟨hfd2.trans hfd, hsm2.trans hsm, fun hv => hi2 (hi hv)⟩

/-- C7: any sequence of `add_to_pp_files` calls — the sole write path into
the schedule — preserves the schedule invariant (per project and parser
kind: no duplicate file ids, no id from the deleted bucket), never touches
the file diff or the saved manifest, and a call fails exactly when the
file's parser tag or sub-project name is unresolvable (empty). -/
theorem c7_schedule_invariant (st : PPState) (fs : List SourceFile)
    (st' : PPState) (sf2 : SourceFile)
    (hrun : add_files_loop st fs = .ok st')
    (hinv : schedule_inv st.project_parser_files st.file_diff.deleted) :
    (schedule_inv st'.project_parser_files st'.file_diff.deleted ∧
      st'.file_diff = st.file_diff ∧ st'.saved_manifest = st.saved_manifest) ∧
    (add_to_pp_files st sf2 =
        .error (.raised ("Did not find parse_file_type or project_name in SourceFile for " ++ sf2.file_id)) ↔
      (parse_file_type_to_parser_name sf2.parse_file_type = "" ∨
        sf2.project_name = "")) := by
  obtain ⟨hfd, hsm, hi⟩ := add_files_loop_inv fs st st' hrun
  refine ⟨⟨hi hinv, hfd, hsm⟩, ?_⟩
  unfold add_to_pp_files
  by_cases hc : parse_file_type_to_parser_name sf2.parse_file_type = "" ∨
      sf2.project_name = ""
  · simp [hc]
  · simp [hc]

theorem c7_schedule_invariant_witness :
    (schedule_inv c7_state1.project_parser_files c7_state1.file_diff.deleted ∧
      c7_state1.file_diff = c7_state0.file_diff ∧
      c7_state1.saved_manifest = c7_state0.saved_manifest) ∧
    (add_to_pp_files c7_state0 c7_bad_file =
        .error (.raised ("Did not find parse_file_type or project_name in SourceFile for " ++ c7_bad_file.file_id)) ↔
      (parse_file_type_to_parser_name c7_bad_file.parse_file_type = "" ∨
        c7_bad_file.project_name = "")) :=
  c7_schedule_invariant c7_state0
    [c7_file_a, c7_file_a, c7_file_gone, c7_file_b] c7_state1 c7_bad_file rfl
    (by intro proj pl h; simp [c7_state0, alookup] at h)

/-! ## Claim C4: deleting a model cascades to its schema tests -/

theorem list_remove_first_spec (y : String) :
    ∀ l : List String, y ∈ l →
      ∃ r, list_remove_first l y = some r ∧
        (∀ x, x ≠ y → (x ∈ r ↔ x ∈ l)) := by
  intro l
  induction l with
  | nil => intro h; cases h
  | cons x rest ih =>
    intro hmem
    by_cases hx : x = y
    · subst hx
      refine ⟨rest, by simp [list_remove_first], ?_⟩
      intro z hz
      simp [List.mem_cons, hz]
    · have hyr : y ∈ rest := by
        rcases List.mem_cons.mp hmem with h1 | h1
        · exact absurd h1.symm hx
        · exact h1
      obtain ⟨r, hr, hiff⟩ := ih hyr
      refine ⟨x :: r, ?_, ?_⟩
      · simp [list_remove_first, hx, hr]
      · intro z hz
        simp [List.mem_cons, hiff z hz]

theorem list_remove_first_not_mem (y : String) :
    ∀ l : List String, l.Nodup → ∀ r, list_remove_first l y = some r → y ∉ r := by
  intro l
  induction l with
  | nil => intro _ r hr; cases hr
  | cons x rest ih =>
    intro hnd r hr
    by_cases hx : x = y
    · subst hx
      simp [list_remove_first] at hr
      subst hr
      exact (List.nodup_cons.mp hnd).1
    · simp [list_remove_first, hx] at hr
      obtain ⟨r0, hr0, hrc⟩ := hr
      subst hrc
      intro hyin
      rcases List.mem_cons.mp hyin with h1 | h1
      · exact hx h1.symm
      · exact ih (List.nodup_cons.mp hnd).2 r0 hr0 h1

theorem build_test_index_ok (nodes : List (String × ManifestNode)) :
    ∀ (ts : List String) (idx : List (String × List String)),
      (∀ t ∈ ts, ∃ tn, alookup nodes t = some tn ∧ tn.depends_on.nodes ≠ []) →
      ∃ idx2, build_test_index nodes idx ts = .ok idx2 ∧
        ∀ n, alookup idx2 n =
          idx_combine (alookup idx n) (tests_matching nodes ts n) := by
  intro ts
  induction ts with
  | nil =>
    intro idx _
    refine ⟨idx, rfl, ?_⟩
    intro n
    cases ho : alookup idx n <;> simp [tests_matching, idx_combine]
  | cons t rest ih =>
    intro idx h
    obtain ⟨tn, hlt, hne⟩ := h t (List.mem_cons_self t rest)
    obtain ⟨dep, deps, hdeps⟩ : ∃ dep deps, tn.depends_on.nodes = dep :: deps := by
      cases hd : tn.depends_on.nodes with
      | nil => exact absurd hd hne
      | cons a as => exact ⟨a, as, rfl⟩
    have hhead : tn.depends_on.nodes.head? = some dep := by rw [hdeps]; rfl
    obtain ⟨idx2, hbuild, hchar⟩ :=
      ih (match alookup idx (last_dot_part dep) with
          | some l => aset idx (last_dot_part dep) (l ++ [t])
          | none => aset idx (last_dot_part dep) [t])
        (fun t' ht' => h t' (List.mem_cons_of_mem t ht'))
    refine ⟨idx2, ?_, ?_⟩
    · simp only [build_test_index, hlt, hhead]
      exact hbuild
    · intro n
      rw [hchar n]
      by_cases hn : last_dot_part dep = n
      · subst hn
        have hmt : test_matches nodes (last_dot_part dep) t = true := by
          simp [test_matches, hlt, hhead]
        have : tests_matching nodes (t :: rest) (last_dot_part dep) =
            t :: tests_matching nodes rest (last_dot_part dep) := by
          simp [tests_matching, List.filter_cons, hmt]
        rw [this]
        cases ho : alookup idx (last_dot_part dep) with
        | none =>
          rw [show alookup (aset idx (last_dot_part dep) [t]) (last_dot_part dep) =
            some [t] by rw [alookup_aset, if_pos rfl]]
          cases hre : tests_matching nodes rest (last_dot_part dep) <;>
            simp [idx_combine]
        | some l =>
          rw [show alookup (aset idx (last_dot_part dep) (l ++ [t]))
            (last_dot_part dep) = some (l ++ [t]) by rw [alookup_aset, if_pos rfl]]
          cases hre : tests_matching nodes rest (last_dot_part dep) <;>
            simp [idx_combine]
      · have hmt : test_matches nodes n t = false := by
          simp only [test_matches, hlt, hhead]
          simp [hn]
        have hsame : tests_matching nodes (t :: rest) n =
            tests_matching nodes rest n := by
          simp [tests_matching, List.filter_cons, hmt]
        rw [hsame]
        cases ho : alookup idx (last_dot_part dep) with
        | none =>
          rw [show alookup (aset idx (last_dot_part dep) [t]) n =
            alookup idx n by rw [alookup_aset, if_neg hn]]
        | some l =>
          rw [show alookup (aset idx (last_dot_part dep) (l ++ [t])) n =
            alookup idx n by rw [alookup_aset, if_neg hn]]

theorem cons_contains_filter (t : String) (rest : List String) (x : String) :
    (!rest.contains x && (x != t)) = !((t :: rest).contains x) := by
  by_cases hp : x = t
  · subst hp
    simp [List.contains_cons]
  · simp [List.contains_cons, bne_iff_ne, hp]

theorem get_tests_for_ok (st : PPState) (fid nm : String) (S : SourceFile)
    (hS : alookup st.saved_manifest.files fid = some S)
    (hidx : S.pp_test_index = none)
    (h : ∀ t ∈ S.tests, ∃ tn, alookup st.saved_manifest.nodes t = some tn ∧
      tn.depends_on.nodes ≠ []) :
    ∃ idx2, get_tests_for st fid nm =
      .ok (tests_matching st.saved_manifest.nodes S.tests nm,
        set_saved_file st fid { S with pp_test_index := some idx2 }) := by
  obtain ⟨idx2, hbuild, hchar⟩ :=
    build_test_index_ok st.saved_manifest.nodes S.tests [] h
  refine ⟨idx2, ?_⟩
  have hget : (alookup idx2 nm).getD [] =
      tests_matching st.saved_manifest.nodes S.tests nm := by
    rw [hchar nm]
    cases hre : tests_matching st.saved_manifest.nodes S.tests nm <;>
      simp [idx_combine, alookup]
  simp only [get_tests_for, fetch_saved_file, hS, except_bind_ok, hidx,
    hbuild, if_true, hget]

theorem remove_tests_loop_ok (fid : String) :
    ∀ (ts : List String) (st : PPState) (S : SourceFile),
      ts.Nodup →
      alookup st.saved_manifest.files fid = some S →
      (∀ t ∈ ts, (alookup st.saved_manifest.nodes t).isSome) →
      (∀ t ∈ ts, t ∈ S.tests) →
      ∃ st2 ts2, remove_tests_loop fid st ts = .ok st2 ∧
        st2.saved_manifest.nodes =
          st.saved_manifest.nodes.filter (fun p => !ts.contains p.1) ∧
        (∀ k ∈ ts, alookup st2.deleted_manifest.nodes k =
          alookup st.saved_manifest.nodes k) ∧
        (∀ k, k ∉ ts → alookup st2.deleted_manifest.nodes k =
          alookup st.deleted_manifest.nodes k) ∧
        alookup st2.saved_manifest.files fid = some { S with tests := ts2 } ∧
        st2.project_parser_files = st.project_parser_files ∧
        st2.file_diff = st.file_diff ∧
        st2.new_files = st.new_files := by
  intro ts
  induction ts with
  | nil =>
    intro st S _ hS _ _
    refine ⟨st, S.tests, rfl, ?_, ?_, ?_, ?_, rfl, rfl, rfl⟩
    · rw [List.filter_eq_self.mpr]
      intro p _
      simp
    · intro k hk; cases hk
    · intro k _; rfl
    · exact hS
  | cons t rest ih =>
    intro st S hnd hS hsome hmem
    have hts : (alookup st.saved_manifest.nodes t).isSome :=
      hsome t (List.mem_cons_self t rest)
    obtain ⟨tn, htn⟩ : ∃ tn, alookup st.saved_manifest.nodes t = some tn := by
      cases hl : alookup st.saved_manifest.nodes t with
      | none => rw [hl] at hts; cases hts
      | some v => exact ⟨v, rfl⟩
    have hpop : apop st.saved_manifest.nodes t =
        some (tn, st.saved_manifest.nodes.filter (fun p => p.1 != t)) := by
      unfold apop
      rw [htn]
    obtain ⟨ts', hrm, hiff⟩ :=
      list_remove_first_spec t S.tests (hmem t (List.mem_cons_self t rest))
    have htnin : t ∉ rest := (List.nodup_cons.mp hnd).1
    have hndr : rest.Nodup := (List.nodup_cons.mp hnd).2
    obtain ⟨st2, ts2, hloop, hnodes, hdel_in, hdel_out, hfile, hpp, hfd, hnf⟩ :=
      ih (PPState.mk
            { st.saved_manifest with
              nodes := st.saved_manifest.nodes.filter (fun p => p.1 != t),
              files := aset st.saved_manifest.files fid { S with tests := ts' } }
            st.new_files st.project_parser_files
            { st.deleted_manifest with
              nodes := aset st.deleted_manifest.nodes t tn }
            st.file_diff)
        { S with tests := ts' } hndr
        (by simp only []; rw [alookup_aset, if_pos rfl])
        (by
          intro t' ht'
          simp only []
          rw [alookup_filter_ne]
          · exact hsome t' (List.mem_cons_of_mem t ht')
          · intro he
            exact htnin (he ▸ ht'))
        (by
          intro t' ht'
          simp only []
          have hne : t' ≠ t := fun he => htnin (he ▸ ht')
          exact (hiff t' hne).mpr (hmem t' (List.mem_cons_of_mem t ht')))
    refine ⟨st2, ts2, ?_, ?_, ?_, ?_, ?_, hpp, hfd, hnf⟩
    · rw [remove_tests_loop, hpop]
      simp only [fetch_saved_file, hS, hrm]
      exact hloop
    · rw [hnodes]
      simp only []
      rw [List.filter_filter]
      apply List.filter_congr
      intro p _
      exact cons_contains_filter t rest p.1
    · intro k hk
      rcases List.mem_cons.mp hk with h1 | h1
      · rw [h1, hdel_out t htnin]
        simp only []
        rw [alookup_aset, if_pos rfl, htn]
      · rw [hdel_in k h1]
        simp only []
        rw [alookup_filter_ne]
        intro he
        exact htnin (he ▸ h1)
    · intro k hk
      have hk1 : k ≠ t := fun he => hk (he ▸ List.mem_cons_self t rest)
      have hk2 : k ∉ rest := fun he => hk (List.mem_cons_of_mem t he)
      rw [hdel_out k hk2]
      simp only []
      rw [alookup_aset, if_neg (fun he => hk1 he.symm)]
    · rw [hfile]

theorem set_saved_file_nodes (st : PPState) (fid : String) (sf : SourceFile) :
    (set_saved_file st fid sf).saved_manifest.nodes = st.saved_manifest.nodes := rfl

theorem set_saved_file_deleted (st : PPState) (fid : String) (sf : SourceFile) :
    (set_saved_file st fid sf).deleted_manifest = st.deleted_manifest := rfl

theorem set_saved_file_pp (st : PPState) (fid : String) (sf : SourceFile) :
    (set_saved_file st fid sf).project_parser_files = st.project_parser_files := rfl

theorem set_saved_file_fd (st : PPState) (fid : String) (sf : SourceFile) :
    (set_saved_file st fid sf).file_diff = st.file_diff := rfl

theorem set_saved_file_nf (st : PPState) (fid : String) (sf : SourceFile) :
    (set_saved_file st fid sf).new_files = st.new_files := rfl

theorem set_saved_file_lookup_self (st : PPState) (fid : String) (sf : SourceFile) :
    alookup (set_saved_file st fid sf).saved_manifest.files fid = some sf := by
  simp only [set_saved_file]
  rw [alookup_aset, if_pos rfl]

theorem delete_schema_mssa_links_scenario
    (st1 : PPState) (sid : String) (S : SourceFile) (elem : SchemaElem)
    (uid : String)
    (hS : alookup st1.saved_manifest.files sid = some S)
    (huid_not : alookup st1.saved_manifest.nodes uid = none)
    (h_np : S.node_patches.find?
      (fun u => str_startswith u "model" && last_dot_part u == elem.name) = some uid)
    (h_idx : S.pp_test_index = none)
    (h_tests_nd : S.tests.Nodup)
    (h_tests : ∀ t ∈ S.tests, t ≠ uid ∧
      ∃ tn, alookup st1.saved_manifest.nodes t = some tn ∧
        tn.depends_on.nodes ≠ []) :
    ∃ st3 nps idx2 ts2,
      delete_schema_mssa_links st1 sid "models" elem = .ok st3 ∧
      list_remove_first S.node_patches uid = some nps ∧
      st3.saved_manifest.nodes = st1.saved_manifest.nodes.filter
        (fun p => !((tests_matching st1.saved_manifest.nodes S.tests
          elem.name).contains p.1)) ∧
      (∀ k ∈ tests_matching st1.saved_manifest.nodes S.tests elem.name,
        alookup st3.deleted_manifest.nodes k =
          alookup st1.saved_manifest.nodes k) ∧
      (∀ k, k ∉ tests_matching st1.saved_manifest.nodes S.tests elem.name →
        alookup st3.deleted_manifest.nodes k =
          alookup st1.deleted_manifest.nodes k) ∧
      alookup st3.saved_manifest.files sid =
        some { S with
            node_patches := nps,
            pp_test_index := some idx2,
            tests := ts2 } ∧
      st3.project_parser_files = st1.project_parser_files ∧
      st3.file_diff = st1.file_diff ∧
      st3.new_files = st1.new_files := by
  have hfetch1 : fetch_saved_file st1 sid = .ok S := by
    unfold fetch_saved_file
    rw [hS]
  have hpop_none : apop st1.saved_manifest.nodes uid = none := by
    unfold apop
    rw [huid_not]
  obtain ⟨nps, hrm, hiff⟩ := list_remove_first_spec uid S.node_patches
    (List.mem_of_find?_eq_some h_np)
  set Sb : SourceFile := { S with node_patches := nps } with hSb
  obtain ⟨idx2, hB⟩ := get_tests_for_ok
    (set_saved_file st1 sid Sb) sid elem.name Sb
    (set_saved_file_lookup_self st1 sid Sb)
    h_idx
    (by
      intro t ht
      rw [set_saved_file_nodes]
      exact (h_tests t ht).2)
  obtain ⟨st3, ts2, hloop, hnodes3, hdelin3, hdelout3, hfile3, hpp3, hfd3, hnf3⟩ :=
    remove_tests_loop_ok sid
      (tests_matching
        (set_saved_file st1 sid Sb).saved_manifest.nodes
        Sb.tests elem.name)
      (set_saved_file (set_saved_file st1 sid Sb) sid
        { Sb with pp_test_index := some idx2 })
      { Sb with pp_test_index := some idx2 }
      (by
        rw [set_saved_file_nodes]
        exact List.Nodup.filter _ h_tests_nd)
      (set_saved_file_lookup_self _ sid _)
      (by
        intro t ht
        rw [set_saved_file_nodes] at ht ⊢
        rw [set_saved_file_nodes]
        have htS : t ∈ S.tests := List.mem_of_mem_filter ht
        obtain ⟨tn, htn, _⟩ := (h_tests t htS).2
        rw [htn]
        rfl)
      (by
        intro t ht
        rw [set_saved_file_nodes] at ht
        exact List.mem_of_mem_filter ht)
  refine ⟨st3, nps, idx2, ts2, ?_, hrm, ?_, ?_, ?_, ?_, ?_, ?_, ?_⟩
  · simp only [delete_schema_mssa_links, hfetch1, except_bind_ok,
      show alookup key_to_prefix_map "models" = some "model" from rfl,
      h_np, hpop_none, hrm, String.reduceEq, reduceIte, Bool.or_self,
      if_true, hB, hloop]
    simp
  · have h := hnodes3
    simp only [set_saved_file_nodes] at h
    exact h
  · intro k hk
    have h1 := hdelin3 k (by rw [set_saved_file_nodes]; exact hk)
    simp only [set_saved_file_nodes] at h1
    exact h1
  · intro k hk
    have h1 := hdelout3 k (by rw [set_saved_file_nodes]; exact hk)
    simp only [set_saved_file_deleted] at h1
    exact h1
  · exact hfile3
  · have h := hpp3
    simp only [set_saved_file_pp] at h
    exact h
  · have h := hfd3
    simp only [set_saved_file_fd] at h
    exact h
  · have h := hnf3
    simp only [set_saved_file_nf] at h
    exact h

theorem tests_matching_filter_congr (nodes : List (String × ManifestNode))
    (uid : String) (ts : List String) (nm : String)
    (h : ∀ t ∈ ts, t ≠ uid) :
    tests_matching (nodes.filter (fun p => p.1 != uid)) ts nm =
      tests_matching nodes ts nm := by
  unfold tests_matching
  apply List.filter_congr
  intro t ht
  unfold test_matches
  rw [alookup_filter_ne _ _ _ (h t ht)]

theorem add_to_pp_files_ok_sched (st : PPState) (sf : SourceFile)
    (hns : ¬(parse_file_type_to_parser_name sf.parse_file_type = "" ∨
      sf.project_name = "")) :
    ∃ st1, add_to_pp_files st sf = .ok st1 ∧
      st1.saved_manifest = st.saved_manifest ∧
      st1.file_diff = st.file_diff ∧
      st1.new_files = st.new_files ∧
      st1.deleted_manifest = st.deleted_manifest ∧
      (st.file_diff.deleted.contains sf.file_id = false →
        ∃ pl l, alookup st1.project_parser_files sf.project_name = some pl ∧
          alookup pl (parse_file_type_to_parser_name sf.parse_file_type) = some l ∧
          sf.file_id ∈ l) := by
  unfold add_to_pp_files
  simp only []
  rw [if_neg hns]
  refine ⟨_, rfl, rfl, rfl, rfl, rfl, ?_⟩
  intro hdel
  have hmem2 : sf.file_id ∈ (if (!((alookup ((alookup st.project_parser_files
      sf.project_name).getD []) (parse_file_type_to_parser_name
      sf.parse_file_type)).getD []).contains sf.file_id &&
      !st.file_diff.deleted.contains sf.file_id) = true
    then ((alookup ((alookup st.project_parser_files sf.project_name).getD [])
      (parse_file_type_to_parser_name sf.parse_file_type)).getD []) ++ [sf.file_id]
    else ((alookup ((alookup st.project_parser_files sf.project_name).getD [])
      (parse_file_type_to_parser_name sf.parse_file_type)).getD [])) := by
    cases hmem : ((alookup ((alookup st.project_parser_files
        sf.project_name).getD []) (parse_file_type_to_parser_name
        sf.parse_file_type)).getD []).contains sf.file_id with
    | true =>
      simp only [hmem, Bool.not_true, Bool.false_and, Bool.false_eq_true,
        if_false]
      simpa using hmem
    | false =>
      simp only [hmem, hdel, Bool.not_false, Bool.and_self, if_true]
      simp
  exact ⟨_, _, by rw [alookup_aset, if_pos rfl],
    by rw [alookup_aset, if_pos rfl], hmem2⟩

/-- C4: removing a model node whose declarative element lives in a schema
file that owns N tests for it (the ids in `tests_matching`) deletes from
the saved manifest exactly the model node and those N test nodes, records
every one of them in the removed manifest, and schedules the owning schema
file for reparse. -/
theorem c4_model_cascade
    (st : PPState) (source_file S : SourceFile) (uid sid : String)
    (node : ManifestNode) (elems : List SchemaElem) (elem : SchemaElem)
    (h_pft : source_file.parse_file_type = ParseFileType.Model)
    (h_node : alookup st.saved_manifest.nodes uid = some node)
    (h_patch : node.patch_path = some sid)
    (h_not_del : st.file_diff.deleted.contains sid = false)
    (h_S : alookup st.saved_manifest.files sid = some S)
    (h_fid : S.file_id = sid)
    (h_kind : S.parse_file_type = ParseFileType.Schema)
    (h_proj : S.project_name ≠ "")
    (h_sect : alookup S.dfy.sections "models" = some elems)
    (h_find : elems.reverse.find? (fun e => e.name == node.name) = some elem)
    (h_np : S.node_patches.find?
      (fun u => str_startswith u "model" && last_dot_part u == elem.name) = some uid)
    (h_np_nd : S.node_patches.Nodup)
    (h_idx : S.pp_test_index = none)
    (h_tests_nd : S.tests.Nodup)
    (h_tests : ∀ t ∈ S.tests, t ≠ uid ∧
      ∃ tn, alookup st.saved_manifest.nodes t = some tn ∧
        tn.depends_on.nodes ≠ []) :
    ∃ st', delete_node_in_saved st source_file uid = .ok st' ∧
      st'.saved_manifest.nodes = st.saved_manifest.nodes.filter
        (fun p => !(p.1 == uid) &&
          !((tests_matching st.saved_manifest.nodes S.tests
            node.name).contains p.1)) ∧
      (∀ k, (k = uid ∨
          k ∈ tests_matching st.saved_manifest.nodes S.tests node.name) →
        alookup st'.deleted_manifest.nodes k =
          alookup st.saved_manifest.nodes k) ∧
      (∀ k, k ≠ uid →
        k ∉ tests_matching st.saved_manifest.nodes S.tests node.name →
        alookup st'.deleted_manifest.nodes k =
          alookup st.deleted_manifest.nodes k) ∧
      (∃ pl l, alookup st'.project_parser_files S.project_name = some pl ∧
        alookup pl "SchemaParser" = some l ∧ sid ∈ l) := by
  have hpop : apop st.saved_manifest.nodes uid =
      some (node, st.saved_manifest.nodes.filter (fun p => p.1 != uid)) := by
    unfold apop
    rw [h_node]
  have h_ename : elem.name = node.name := by
    have := List.find?_some h_find
    simpa using this
  obtain ⟨st3, nps, idx2, ts2, hE, hrm, hnodes, hdelin, hdelout, hfile,
      hppE, hfdE, hnfE⟩ :=
    delete_schema_mssa_links_scenario
      (PPState.mk
        { st.saved_manifest with
          nodes := st.saved_manifest.nodes.filter (fun p => p.1 != uid) }
        st.new_files st.project_parser_files
        { st.deleted_manifest with
          nodes := aset st.deleted_manifest.nodes uid node }
        st.file_diff)
      sid S elem uid
      h_S
      (alookup_filter_self _ _)
      h_np h_idx h_tests_nd
      (by
        intro t ht
        refine ⟨(h_tests t ht).1, ?_⟩
        obtain ⟨tn, htn, hne⟩ := (h_tests t ht).2
        refine ⟨tn, ?_, hne⟩
        show alookup (st.saved_manifest.nodes.filter (fun p => p.1 != uid)) t =
          some tn
        rw [alookup_filter_ne _ _ _ (h_tests t ht).1]
        exact htn)
  set S3 : SourceFile :=
    { S with
        node_patches := nps,
        pp_test_index := some idx2,
        tests := ts2 } with hS3def
  set Sm : SourceFile := merge_patch S3 "models" elem with hSmdef
  have h_match : tests_matching
      (st.saved_manifest.nodes.filter (fun p => p.1 != uid)) S.tests elem.name =
      tests_matching st.saved_manifest.nodes S.tests node.name := by
    rw [h_ename]
    exact tests_matching_filter_congr _ _ _ _ (fun t ht => (h_tests t ht).1)
  have h_uid_nm : uid ∉ tests_matching st.saved_manifest.nodes S.tests
      node.name := by
    intro hin
    exact (h_tests uid (List.mem_of_mem_filter hin)).1 rfl
  have hfetch3 : fetch_saved_file st3 sid = .ok S3 := by
    unfold fetch_saved_file
    rw [hfile]
  have hmerge : merge_patch_in st3 sid "models" elem =
      .ok (set_saved_file st3 sid Sm) := by
    unfold merge_patch_in
    rw [hfetch3, except_bind_ok, hSmdef]
  have hfetch4 : fetch_saved_file (set_saved_file st3 sid Sm) sid =
      .ok Sm := by
    unfold fetch_saved_file
    rw [set_saved_file_lookup_self]
  have hns : ¬(parse_file_type_to_parser_name Sm.parse_file_type = "" ∨
      Sm.project_name = "") := by
    have h1 : Sm.parse_file_type = ParseFileType.Schema := h_kind
    have h2 : Sm.project_name = S.project_name := rfl
    rw [h1, h2]
    intro hor
    rcases hor with h | h
    · exact absurd h (by decide)
    · exact h_proj h
  obtain ⟨st5, hadd, hsm5, hfd5, hnf5, hdm5, hsched⟩ :=
    add_to_pp_files_ok_sched (set_saved_file st3 sid Sm) Sm hns
  have hdelc : (set_saved_file st3 sid Sm).file_diff.deleted.contains
      Sm.file_id = false := by
    rw [set_saved_file_fd, hfdE]
    rw [show Sm.file_id = S.file_id from rfl, h_fid]
    exact h_not_del
  obtain ⟨pl, l, hpl, hll, hmeml⟩ := hsched hdelc
  have hfetch5 : fetch_saved_file st5 sid = .ok Sm := by
    unfold fetch_saved_file
    rw [hsm5]
    rw [show (set_saved_file st3 sid Sm).saved_manifest.files =
      aset st3.saved_manifest.files sid Sm from rfl]
    rw [alookup_aset, if_pos rfl]
  have hcontains : Sm.node_patches.contains uid = false := by
    have hnm : uid ∉ nps := list_remove_first_not_mem uid S.node_patches
      h_np_nd nps hrm
    show nps.contains uid = false
    cases hc : nps.contains uid with
    | false => rfl
    | true => exact absurd (by simpa using hc) hnm
  have halook4 : alookup (set_saved_file st3 sid Sm).saved_manifest.files
      sid = some Sm := by
    rw [show (set_saved_file st3 sid Sm).saved_manifest.files =
      aset st3.saved_manifest.files sid Sm from rfl]
    rw [alookup_aset, if_pos rfl]
  have halook5 : alookup st5.saved_manifest.files sid = some Sm := by
    rw [hsm5]
    exact halook4
  refine ⟨st5, ?_, ?_, ?_, ?_, ?_⟩
  · simp only [delete_node_in_saved, hpop, except_bind_ok, h_patch,
      h_not_del, Bool.false_eq_true, if_false, fetch_saved_file, h_S,
      h_pft, parse_file_type_to_key, h_sect, h_find, hE, hmerge, halook4,
      hadd, halook5, hcontains, except_bind_ok]
  · rw [show st5.saved_manifest.nodes = st3.saved_manifest.nodes by
      rw [hsm5]; rfl]
    rw [hnodes]
    simp only []
    rw [h_match, List.filter_filter]
    apply List.filter_congr
    intro p _
    rw [Bool.and_comm]
    rfl
  · intro k hk
    have hdm : st5.deleted_manifest = st3.deleted_manifest := by
      rw [hdm5]
      rfl
    rcases hk with hk | hk
    · subst hk
      have h1 := hdelout k (by
        simp only []
        rw [h_match]
        exact h_uid_nm)
      rw [hdm, h1]
      simp only []
      rw [alookup_aset, if_pos rfl, h_node]
    · have hkt : k ∈ S.tests := List.mem_of_mem_filter hk
      have hkne : k ≠ uid := (h_tests k hkt).1
      have h1 := hdelin k (by
        simp only []
        rw [h_match]
        exact hk)
      rw [hdm, h1]
      simp only []
      rw [alookup_filter_ne _ _ _ hkne]
  · intro k hk1 hk2
    have hdm : st5.deleted_manifest = st3.deleted_manifest := by
      rw [hdm5]
      rfl
    have h1 := hdelout k (by
      simp only []
      rw [h_match]
      exact hk2)
    rw [hdm, h1]
    simp only []
    rw [alookup_aset, if_neg (fun he => hk1 he.symm)]
  · refine ⟨pl, l, ?_, ?_, ?_⟩
    · rw [show Sm.project_name = S.project_name from rfl] at hpl
      exact hpl
    · rw [show parse_file_type_to_parser_name Sm.parse_file_type =
        "SchemaParser" by
          rw [show Sm.parse_file_type = S.parse_file_type from rfl, h_kind]
          rfl] at hll
      exact hll
    · rw [show Sm.file_id = S.file_id from rfl, h_fid] at hmeml
      exact hmeml

theorem c4_model_cascade_witness :
    ∃ st', delete_node_in_saved c4_state c4_model_file
        "model.test.my_model" = .ok st' ∧
      st'.saved_manifest.nodes = c4_state.saved_manifest.nodes.filter
        (fun p => !(p.1 == "model.test.my_model") &&
          !((tests_matching c4_state.saved_manifest.nodes
            c4_schema_file.tests c4_node.name).contains p.1)) ∧
      (∀ k, (k = "model.test.my_model" ∨
          k ∈ tests_matching c4_state.saved_manifest.nodes
            c4_schema_file.tests c4_node.name) →
        alookup st'.deleted_manifest.nodes k =
          alookup c4_state.saved_manifest.nodes k) ∧
      (∀ k, k ≠ "model.test.my_model" →
        k ∉ tests_matching c4_state.saved_manifest.nodes
          c4_schema_file.tests c4_node.name →
        alookup st'.deleted_manifest.nodes k =
          alookup c4_state.deleted_manifest.nodes k) ∧
      (∃ pl l, alookup st'.project_parser_files
          c4_schema_file.project_name = some pl ∧
        alookup pl "SchemaParser" = some l ∧
        "test://models/schema.yml" ∈ l) :=
  c4_model_cascade c4_state c4_model_file c4_schema_file
    "model.test.my_model" "test://models/schema.yml" c4_node
    [c4_elem] c4_elem
    rfl rfl rfl rfl rfl rfl rfl (by decide) rfl (by decide) (by decide)
    (by decide) rfl (by decide)
    (by
      intro t ht
      have ht2 : t = "test.test.t1" ∨ t = "test.test.t2" := by
        simpa [c4_schema_file] using ht
      rcases ht2 with rfl | rfl
      · exact ⟨by decide, c4_tnode1, rfl, by decide⟩
      · exact ⟨by decide, c4_tnode2, rfl, by decide⟩)

end DbtPartial
